import Mathlib

/-!
LED snake: a shallow embedding of `sketches/snake.c`.

The sketch keeps the whole game in global variables and advances it in `loop()`.
Here the globals become the fields of `State`, one call of `loop()` becomes the
function `loop`, and everything the sketch reads from the outside world during
that call (button, joystick, `random`) is an `Input`.

Conventions.
* C `int` values are integers (`Int`); `/` and `%` are C division and remainder
  (`Int.tdiv`, `Int.tmod`, truncating). `frameCount` is incremented without end,
  so its increment wraps at 32 bits (`wrapInt`), from `INT_MAX` to `INT_MIN`.
  `snakeLen` only ever holds 3 or a successor, so it is a `Nat`.
* `snakeRow` / `snakeCol` are maps from index to content. Only indices below
  `MAX_SNAKE_LEN` exist in the sketch: a write at another index, or a read of
  `DR` / `DC` outside `0..3`, stops the run with `Stop.outOfBounds`.
  Reads of the snake arrays happen at indices below `snakeLen` (or at 0).
* A wait that never ends (the button never pressed at the game-over screen, or
  `placeFood` never drawing a free cell) is `Stop.noReturn`. The wait for the
  release of a pressed button changes no variable and is taken to end.
* What a call shows on the LED matrix and on the score display is output, not
  state; `loop` gives the state the call leaves.
-/

namespace Snake

/-! ## Constants -/

def ROWS : Int := 8
def COLS : Int := 12
def MAX_SNAKE_LEN : Nat := 96
def INITIAL_DELAY : Int := 220
def MIN_DELAY : Int := 60
def DELAY_STEP : Int := 15

/-- The largest and the smallest value of the 32-bit `int` of the sketch. -/
def INT_MAX : Int := 2147483647

def INT_MIN : Int := -2147483648

/-- A 32-bit `int` after an overflow: the value taken modulo `2^32` into
`[INT_MIN, INT_MAX]`. -/
def wrapInt (x : Int) : Int := (x + 2147483648) % 4294967296 - 2147483648

def JOY_LEFT : Int := 400
def JOY_RIGHT : Int := 600
def JOY_UP : Int := 600
def JOY_DOWN : Int := 400

/-- Row delta of a direction: `DR[] = {-1, 0, 1, 0}` (0 up, 1 right, 2 down, 3 left).
The table has four entries; `tick` checks the index before it reads. -/
def DR (d : Int) : Int :=
  if d = 0 then -1 else if d = 1 then 0 else if d = 2 then 1 else 0

/-- Column delta of a direction: `DC[] = {0, 1, 0, -1}`. -/
def DC (d : Int) : Int :=
  if d = 0 then 0 else if d = 1 then 1 else if d = 2 then 0 else -1

/-! ## State and inputs -/

/-- Why a call did not come back with a state. -/
inductive Stop where
  | outOfBounds
  | noReturn
  deriving DecidableEq, Repr

/-- The global variables of the sketch. -/
structure State where
  snakeRow : Nat → Int
  snakeCol : Nat → Int
  snakeLen : Nat
  direction : Int
  paused : Bool
  gameOver : Bool
  score : Int
  foodRow : Int
  foodCol : Int
  frameCount : Int
  gameDelay : Int

/-- What one call of `loop()` reads from outside.
`button`: the joystick button reads LOW (pressed) when the call polls it; at the
game-over screen the call polls until that happens.
`x`, `y`: the two `analogRead` values.
`draws`: the successive pairs `(random(ROWS), random(COLS))` handed out to
`placeFood` during the call. -/
structure Input where
  button : Bool
  x : Int
  y : Int
  draws : List (Int × Int)

/-- The snake as the sketch sees it: the cells at indices `[0, len)`, head first. -/
def cells (row col : Nat → Int) (len : Nat) : List (Int × Int) :=
  (List.range len).map (fun i => (row i, col i))

/-- The snake of a state. -/
def State.snake (s : State) : List (Int × Int) :=
  cells s.snakeRow s.snakeCol s.snakeLen

/-! ## Functions of the sketch -/

/-- `onSnake(r, c)`: some index below `snakeLen` holds the cell `(r, c)`. -/
def onSnake (row col : Nat → Int) (len : Nat) (r c : Int) : Bool :=
  (List.range len).any (fun i => decide (row i = r) && decide (col i = c))

/-- `placeFood()`: draw cells until one is not on the snake (`do … while`). -/
def placeFood (row col : Nat → Int) (len : Nat) :
    List (Int × Int) → Except Stop (Int × Int)
  | [] => .error .noReturn
  | (r, c) :: rest =>
    if onSnake row col len r c then placeFood row col len rest else .ok (r, c)

/-- Array store `a[i] = v`. -/
def store (a : Nat → Int) (i : Nat) (v : Int) : Nat → Int :=
  fun j => if j = i then v else a j

/-- The three head cells written by `setup()` and by `resetSnake()`. -/
def writeInitialCells (row col : Nat → Int) : (Nat → Int) × (Nat → Int) :=
  let row := store row 0 (ROWS / 2)
  let col := store col 0 2
  let row := store row 1 (ROWS / 2)
  let col := store col 1 1
  let row := store row 2 (ROWS / 2)
  let col := store col 2 0
  (row, col)

/-- `resetSnake()`. -/
def resetSnake (s : State) (draws : List (Int × Int)) : Except Stop State :=
  let rc := writeInitialCells s.snakeRow s.snakeCol
  match placeFood rc.1 rc.2 3 draws with
  | .error e => .error e
  | .ok food =>
    .ok { s with
      snakeLen := 3, direction := 1, score := 0,
      snakeRow := rc.1, snakeCol := rc.2,
      foodRow := food.1, foodCol := food.2,
      gameDelay := INITIAL_DELAY }

/-- The globals as initialised before `setup()` runs (arrays and food zeroed). -/
def initialGlobals : State :=
  { snakeRow := fun _ => 0, snakeCol := fun _ => 0, snakeLen := 3, direction := 1,
    paused := false, gameOver := false, score := 0, foodRow := 0, foodCol := 0,
    frameCount := 0, gameDelay := INITIAL_DELAY }

/-- `setup()`: write the three cells and place the food. -/
def setup (draws : List (Int × Int)) : Except Stop State :=
  let rc := writeInitialCells initialGlobals.snakeRow initialGlobals.snakeCol
  match placeFood rc.1 rc.2 3 draws with
  | .error e => .error e
  | .ok food =>
    .ok { initialGlobals with
      snakeRow := rc.1, snakeCol := rc.2, foodRow := food.1, foodCol := food.2 }

/-- The joystick candidate: four `if`s in the order of the sketch, a later one
overwriting an earlier one. -/
def joystickDir (d x y : Int) : Int :=
  let newDir := d
  let newDir := if x < JOY_LEFT then 3 else newDir
  let newDir := if x > JOY_RIGHT then 1 else newDir
  let newDir := if y < JOY_DOWN then 0 else newDir
  let newDir := if y > JOY_UP then 2 else newDir
  newDir

/-- The direction after `if ((newDir + 2) % 4 != direction) direction = newDir;`. -/
def updateDirection (d x y : Int) : Int :=
  let newDir := joystickDir d x y
  if (newDir + 2).tmod 4 ≠ d then newDir else d

/-- The candidate head `(headR, headC)` for a head cell and a direction. -/
def nextHead (r c d : Int) : Int × Int :=
  ((r + DR d + ROWS).tmod ROWS, (c + DC d + COLS).tmod COLS)

/-- The collision loop: `for (i = 1; i < snakeLen; i++)` with `break` on a hit. -/
def collides (row col : Nat → Int) (len : Nat) (r c : Int) : Bool :=
  (List.range' 1 (len - 1)).any (fun i => decide (row i = r) && decide (col i = c))

/-- The shifting loop `for (i = top; i > 0; i--) { a[i] = a[i-1]; }` run on both
arrays; `top` is `snakeLen` when growing and `snakeLen - 1` when moving. -/
def shiftBody (row col : Nat → Int) :
    Nat → Except Stop ((Nat → Int) × (Nat → Int))
  | 0 => .ok (row, col)
  | i + 1 =>
    if i + 1 < MAX_SNAKE_LEN then
      shiftBody (store row (i + 1) (row i)) (store col (i + 1) (col i)) i
    else .error .outOfBounds

/-- The eating branch of the tick, after the new direction is stored. -/
def eat (s : State) (headR headC : Int) (draws : List (Int × Int)) : Except Stop State :=
  match shiftBody s.snakeRow s.snakeCol s.snakeLen with
  | .error e => .error e
  | .ok rc =>
    let row := store rc.1 0 headR
    let col := store rc.2 0 headC
    let len := s.snakeLen + 1
    match placeFood row col len draws with
    | .error e => .error e
    | .ok food =>
      .ok { s with
        score := s.score + 1,
        snakeRow := row, snakeCol := col, snakeLen := len,
        foodRow := food.1, foodCol := food.2,
        gameDelay := max MIN_DELAY (s.gameDelay - DELAY_STEP),
        frameCount := wrapInt (s.frameCount + 1) }

/-- The plain move branch of the tick. -/
def move (s : State) (headR headC : Int) : Except Stop State :=
  match shiftBody s.snakeRow s.snakeCol (s.snakeLen - 1) with
  | .error e => .error e
  | .ok rc =>
    .ok { s with
      snakeRow := store rc.1 0 headR, snakeCol := store rc.2 0 headC,
      frameCount := wrapInt (s.frameCount + 1) }

/-- The running part of `loop()`: direction update, candidate head, collision
test, then reset / eat / move. -/
def tick (s : State) (inp : Input) : Except Stop State :=
  let direction := updateDirection s.direction inp.x inp.y
  if 0 ≤ direction ∧ direction < 4 then
    let s := { s with direction := direction }
    let head := nextHead (s.snakeRow 0) (s.snakeCol 0) direction
    if collides s.snakeRow s.snakeCol s.snakeLen head.1 head.2 then
      match resetSnake s inp.draws with
      | .error e => .error e
      | .ok s => .ok { s with gameOver := true }
    else if head.1 = s.foodRow ∧ head.2 = s.foodCol then
      eat s head.1 head.2 inp.draws
    else
      move s head.1 head.2
  else .error .outOfBounds

/-- One call of `loop()`. -/
def loop (s : State) (inp : Input) : Except Stop State :=
  if s.gameOver then
    if inp.button then .ok { s with gameOver := false } else .error .noReturn
  else
    let s := if inp.button then { s with paused := !s.paused } else s
    if s.paused then .ok { s with frameCount := wrapInt (s.frameCount + 1) }
    else tick s inp

/-- States the sketch can be in at the start of a call of `loop()`:
the state left by `setup()`, and every state a returning call leaves. -/
inductive Reachable : State → Prop
  | start (draws : List (Int × Int)) (s : State) :
      setup draws = .ok s → Reachable s
  | step (s : State) (inp : Input) (t : State) :
      Reachable s → loop s inp = .ok t → Reachable t

/-- The call reaches the running part: not game over and, after the button is
handled, not paused. -/
def runsTick (s : State) (inp : Input) : Prop :=
  s.gameOver = false ∧ (if inp.button then !s.paused else s.paused) = false

instance (s : State) (inp : Input) : Decidable (runsTick s inp) :=
  inferInstanceAs (Decidable (_ ∧ _))

/-- The candidate head of the tick in state `s` under input `inp`. -/
def candidate (s : State) (inp : Input) : Int × Int :=
  nextHead (s.snakeRow 0) (s.snakeCol 0) (updateDirection s.direction inp.x inp.y)

/-- An array given by its first entries (zero elsewhere). -/
def arr (l : List Int) : Nat → Int := fun i => l.getD i 0

/-- Inside the grid. -/
def inGrid (p : Int × Int) : Prop := 0 ≤ p.1 ∧ p.1 < ROWS ∧ 0 ≤ p.2 ∧ p.2 < COLS

instance (p : Int × Int) : Decidable (inGrid p) :=
  inferInstanceAs (Decidable (_ ∧ _))

/-! ## Concrete states used in the examples -/

/-- The joystick at rest, the button up. -/
def neutral (draws : List (Int × Int)) : Input :=
  { button := false, x := 512, y := 512, draws := draws }

/-- The scenario of the specification: three cells in row 4, heading right, food
straight ahead. -/
def scenarioEat : State :=
  { snakeRow := arr [4, 4, 4], snakeCol := arr [2, 1, 0], snakeLen := 3, direction := 1,
    paused := false, gameOver := false, score := 0, foodRow := 4, foodCol := 3,
    frameCount := 0, gameDelay := 220 }

/-- The `k`-th cell of the path that sweeps the grid row by row, left to right on
even rows and right to left on odd rows. -/
def sweep (k : Nat) : Int × Int :=
  (((k / 12 : Nat) : Int),
    if (k / 12) % 2 = 0 then ((k % 12 : Nat) : Int) else ((11 - k % 12 : Nat) : Int))

/-- A snake of 95 cells lying along the sweep path, head at `(7, 1)`, heading left
to the last free cell `(7, 0)`, where the food is. -/
def fullBoard : State :=
  { snakeRow := fun i => (sweep (94 - i)).1, snakeCol := fun i => (sweep (94 - i)).2,
    snakeLen := 95, direction := 3, paused := false, gameOver := false, score := 92,
    foodRow := 7, foodCol := 0, frameCount := 0, gameDelay := 60 }

/-- The collision scenario of the specification: the snake on `(0,0)`-`(0,2)` with
its head at `(0,2)`, heading left into itself. -/
def scenarioCollide : State :=
  { snakeRow := arr [0, 0, 0], snakeCol := arr [2, 1, 0], snakeLen := 3, direction := 3,
    paused := false, gameOver := false, score := 5, foodRow := 6, foodCol := 6,
    frameCount := 0, gameDelay := 145 }

/-- A plain move: three cells in row 4 heading right, the food elsewhere. -/
def scenarioMove : State :=
  { snakeRow := arr [4, 4, 4], snakeCol := arr [2, 1, 0], snakeLen := 3, direction := 1,
    paused := false, gameOver := false, score := 0, foodRow := 1, foodCol := 7,
    frameCount := 0, gameDelay := 220 }

/-! ## The specification's wording, for comparison -/

/-- The joystick candidate as the specification words it, the Y axis overriding the
X axis: `y > 600` gives 2, else `y < 400` gives 0, else `x > 600` gives 1, else
`x < 400` gives 3, else the current direction. -/
def priorityCandidate (d x y : Int) : Int :=
  if y > 600 then 2 else if y < 400 then 0 else if x > 600 then 1
  else if x < 400 then 3 else d

/-! ## The invariant of the running game -/

/-- What every reachable state satisfies: the snake has a head, lies inside the
grid, visits no cell twice, and the direction is an index into `DR` / `DC`. -/
def Inv (s : State) : Prop :=
  1 ≤ s.snakeLen ∧ (∀ p ∈ s.snake, inGrid p) ∧ s.snake.Nodup ∧
    (0 ≤ s.direction ∧ s.direction < 4)

/-- The state `setup()` leaves when the first draw is `(4, 3)`. -/
def startState : State :=
  { initialGlobals with
    snakeRow := (writeInitialCells initialGlobals.snakeRow initialGlobals.snakeCol).1,
    snakeCol := (writeInitialCells initialGlobals.snakeRow initialGlobals.snakeCol).2,
    foodRow := 4, foodCol := 3 }

/-! ## What the game-over branch draws -/

/-- The local `uint8_t bitmap[8][12]`, as a map from row and column to content. -/
def Bitmap : Type := Int → Int → Nat

/-- The bitmap after `= {0}`. -/
def blankBitmap : Bitmap := fun _ _ => 0

/-- The store `bitmap[r][c] = 1`; outside the 8 x 12 array it is out of bounds. -/
def plot (b : Bitmap) (r c : Int) : Except Stop Bitmap :=
  if 0 ≤ r ∧ r < 8 ∧ 0 ≤ c ∧ c < 12 then
    .ok (fun i j => if i = r ∧ j = c then 1 else b i j)
  else .error .outOfBounds

/-- The loop `for (i = 0; i < snakeLen; i++) bitmap[snakeRow[i]][snakeCol[i]] = 1;`
over the snake cells in index order. -/
def plotSnake (b : Bitmap) : List (Int × Int) → Except Stop Bitmap
  | [] => .ok b
  | (r, c) :: rest =>
    match plot b r c with
    | .error e => .error e
    | .ok b1 => plotSnake b1 rest

/-- The bitmap the game-over branch of `loop()` hands to `renderBitmap`: every
snake cell of the current state, then the current food cell. -/
def gameOverBitmap (s : State) : Except Stop Bitmap :=
  match plotSnake blankBitmap s.snake with
  | .error e => .error e
  | .ok b => plot b s.foodRow s.foodCol

/-- The 8 rows of 12 entries of a bitmap. -/
def picture (b : Bitmap) : List (List Nat) :=
  (List.range 8).map (fun r => (List.range 12).map (fun c => b r c))

/-- Successive calls of `loop()`, one input each. -/
def run (s : State) : List Input → Except Stop State
  | [] => .ok s
  | inp :: rest =>
    match loop s inp with
    | .error e => .error e
    | .ok t => run t rest

/-- Three calls from `startState`: straight on (eating the food at `(4,3)`, the
new food drawn at `(0,0)`), then down, then left. -/
def squareTurn : List Input :=
  [ { button := false, x := 512, y := 512, draws := [(0, 0)] },
    { button := false, x := 512, y := 900, draws := [] },
    { button := false, x := 100, y := 512, draws := [] } ]

/-- The fourth call: up, into the snake's own cell `(4,2)`; the reset draws the
food at `(6,6)`. -/
def turnUp : Input := { button := false, x := 512, y := 100, draws := [(6, 6)] }

/-- The state a returning call leaves (the initial globals stand in when it
does not return). -/
def stateOf (r : Except Stop State) : State :=
  match r with
  | .ok s => s
  | .error _ => initialGlobals

/-- The state after the three calls of `squareTurn`. -/
def beforeCollision : State := stateOf (run startState squareTurn)

/-- The state after the colliding fourth call. -/
def afterCollision : State := stateOf (loop beforeCollision turnUp)

/-! ## The score display -/

/-- Modelled from the spec: the Arduino helper `constrain(value, low, high)`, which is
not part of the sources; the specification has it clamp the value to
`[low, high]`. -/
def constrain (value low high : Int) : Int :=
  if value < low then low else if value > high then high else value

/-- The local array `digits[] = {d0, d1, d2, d3}` of `updateScoreDisplay`, with C
division and remainder. -/
def digits (value : Int) : List Int :=
  let value := constrain value 0 9999
  let d0 := value.tdiv 1000
  let d1 := (value.tdiv 100).tmod 10
  let d2 := (value.tdiv 10).tmod 10
  let d3 := value.tmod 10
  [d0, d1, d2, d3]

/-- The table `seg[10][8]`: one row per digit, entries in the order
a, b, c, d, e, f, g, dp. -/
def seg : List (List Nat) :=
  [ [1, 1, 1, 1, 1, 1, 0, 0],
    [0, 1, 1, 0, 0, 0, 0, 0],
    [1, 1, 0, 1, 1, 0, 1, 0],
    [1, 1, 1, 0, 1, 0, 1, 0],
    [0, 1, 1, 0, 0, 1, 1, 0],
    [1, 0, 1, 0, 1, 1, 1, 0],
    [1, 0, 1, 1, 1, 1, 1, 0],
    [1, 1, 1, 0, 0, 0, 0, 0],
    [1, 1, 1, 1, 1, 1, 1, 0],
    [1, 1, 1, 0, 1, 1, 1, 0] ]

/-- The lines the score display is driven by. `anod a` is `anodPins[a]` (the
constants `A2`..`A5` of the Arduino headers), `segment k` is `segmentsPins[k]`
(pins 5..12); the twelve lines are different pins. -/
inductive Pin where
  | anod (a : Nat)
  | segment (k : Nat)
  deriving DecidableEq, Repr

/-- The two output levels. -/
inductive Level where
  | LOW
  | HIGH
  deriving DecidableEq, Repr

/-- What `updateScoreDisplay` does to the outside, in order. -/
inductive PinEvent where
  | digitalWrite (pin : Pin) (level : Level)
  | delayMicroseconds (us : Nat)
  deriving DecidableEq, Repr

/-- The loop `for (a = 0; a < 4; a++) digitalWrite(anodPins[a], LOW);`. -/
def anodsLow : List PinEvent :=
  (List.range 4).map (fun a => PinEvent.digitalWrite (Pin.anod a) Level.LOW)

/-- The loop `for (k = 0; k < 8; k++) digitalWrite(segmentsPins[k],
(seg[d][k] == 1) ? LOW : HIGH);`. A digit that is no row of the table, or an
entry that is not in the row, is out of bounds. -/
def segmentWrites (d : Int) : Except Stop (List PinEvent) :=
  if 0 ≤ d then
    match seg[d.toNat]? with
    | none => .error .outOfBounds
    | some row =>
      (List.range 8).mapM (fun k =>
        match row[k]? with
        | none => .error .outOfBounds
        | some v =>
          .ok (PinEvent.digitalWrite (Pin.segment k) (if v = 1 then Level.LOW else Level.HIGH)))
  else .error .outOfBounds

/-- The body of the outer loop for position `i` showing digit `d`. -/
def scanDigit (i : Nat) (d : Int) : Except Stop (List PinEvent) :=
  match segmentWrites d with
  | .error e => .error e
  | .ok ws =>
    .ok (anodsLow ++ ws ++
      [PinEvent.digitalWrite (Pin.anod i) Level.HIGH, PinEvent.delayMicroseconds 600])

/-- The outer loop `for (i = 0; i < 4; i++)` from position `i` on, over the
digits still to show. -/
def scanFrom : Nat → List Int → Except Stop (List PinEvent)
  | _, [] => .ok []
  | i, d :: rest =>
    match scanDigit i d with
    | .error e => .error e
    | .ok ev =>
      match scanFrom (i + 1) rest with
      | .error e => .error e
      | .ok evs => .ok (ev ++ evs)

/-- `updateScoreDisplay(value)`: the trace of pin writes and holds. -/
def updateScoreDisplay (value : Int) : Except Stop (List PinEvent) :=
  scanFrom 0 (digits value)

/-- The levels of the four digit-select lines at each hold of a trace, starting
from the levels `lv`. -/
def anodsAtHolds (lv : Nat → Level) : List PinEvent → List (List Level)
  | [] => []
  | PinEvent.digitalWrite (Pin.anod a) l :: rest =>
    anodsAtHolds (fun b => if b = a then l else lv b) rest
  | PinEvent.digitalWrite (Pin.segment _) _ :: rest => anodsAtHolds lv rest
  | PinEvent.delayMicroseconds _ :: rest =>
    [lv 0, lv 1, lv 2, lv 3] :: anodsAtHolds lv rest

/-- The segments of a digit of the display. -/
inductive Segment where
  | a | b | c | d | e | f | g | dp
  deriving DecidableEq, Repr

/-- The segments a table row lights, the row read in the order
a, b, c, d, e, f, g, dp. -/
def litSegments (row : List Nat) : List Segment :=
  ([Segment.a, Segment.b, Segment.c, Segment.d, Segment.e, Segment.f, Segment.g,
      Segment.dp].zip row).filterMap (fun p => if p.2 = 1 then some p.1 else none)

/-- The conventional seven-segment glyphs as the specification lists them
(0: abcdef, 1: bc, 2: abdeg, 3: abcdg, 4: bcfg, 5: acdfg, 6: acdefg, 7: abc,
8: abcdefg, 9: abcdfg), decimal point off. -/
def conventionalGlyph : Nat → List Segment
  | 0 => [.a, .b, .c, .d, .e, .f]
  | 1 => [.b, .c]
  | 2 => [.a, .b, .d, .e, .g]
  | 3 => [.a, .b, .c, .d, .g]
  | 4 => [.b, .c, .f, .g]
  | 5 => [.a, .c, .d, .f, .g]
  | 6 => [.a, .c, .d, .e, .f, .g]
  | 7 => [.a, .b, .c]
  | 8 => [.a, .b, .c, .d, .e, .f, .g]
  | 9 => [.a, .b, .c, .d, .f, .g]
  | _ => []

/-- Phase `i` of the scan as the specification words it: all four digit-select
lines LOW, then each segment line `k` LOW when the table has 1 for the digit and
HIGH otherwise, then digit-select line `i` HIGH, then the hold of 600
microseconds. -/
def specPhase (i d : Nat) : List PinEvent :=
  [PinEvent.digitalWrite (Pin.anod 0) Level.LOW, PinEvent.digitalWrite (Pin.anod 1) Level.LOW,
    PinEvent.digitalWrite (Pin.anod 2) Level.LOW, PinEvent.digitalWrite (Pin.anod 3) Level.LOW]
  ++ (List.range 8).map (fun k =>
    PinEvent.digitalWrite (Pin.segment k)
      (if (seg.getD d []).getD k 0 = 1 then Level.LOW else Level.HIGH))
  ++ [PinEvent.digitalWrite (Pin.anod i) Level.HIGH, PinEvent.delayMicroseconds 600]

/-! ## Modes, the count of meals, and the frame of a running tick -/

/-- The three modes of the specification. -/
inductive Mode where
  | RUNNING
  | PAUSED
  | GAME_OVER
  deriving DecidableEq, Repr

/-- The mode the two flags encode: game over when `gameOver` is set, paused when
`paused` is set, running otherwise. -/
def mode (s : State) : Mode :=
  if s.gameOver then Mode.GAME_OVER else if s.paused then Mode.PAUSED else Mode.RUNNING

/-- The collision flag of the tick in state `s` under input `inp`. -/
def collision (s : State) (inp : Input) : Bool :=
  collides s.snakeRow s.snakeCol s.snakeLen (candidate s inp).1 (candidate s inp).2

/-- The number of foods eaten since the last reset after one more call of
`loop()`, when it was `k` before: a colliding tick resets it, an eating tick adds
one, every other call leaves it. -/
def eatenAfter (k : Nat) (s : State) (inp : Input) : Nat :=
  if runsTick s inp then
    if collision s inp then 0
    else if candidate s inp = (s.foodRow, s.foodCol) then k + 1 else k
  else k

/-- Reachable states together with the number of foods eaten since the last
reset (`resetSnake()` in a colliding tick, or the start). -/
inductive ReachableAfter : Nat → State → Prop
  | start (draws : List (Int × Int)) (s : State) :
      setup draws = .ok s → ReachableAfter 0 s
  | step (k : Nat) (s : State) (inp : Input) (t : State) :
      ReachableAfter k s → loop s inp = .ok t → ReachableAfter (eatenAfter k s inp) t

/-- The test `(frameCount / 2) % 2 == 0` with C division and remainder. -/
def foodVisible (frameCount : Int) : Bool :=
  decide ((frameCount.tdiv 2).tmod 2 = 0)

/-- The bitmap the running branch of `loop()` hands to `renderBitmap` after a tick
without collision, drawn from the variables as the tick left them: every snake
cell, and the food cell when the frame counter says so. -/
def tickBitmap (t : State) : Except Stop Bitmap :=
  match plotSnake blankBitmap t.snake with
  | .error e => .error e
  | .ok b => if foodVisible t.frameCount then plot b t.foodRow t.foodCol else .ok b

/-- The button pressed with the joystick at rest. -/
def pressButton : Input := { button := true, x := 512, y := 512, draws := [] }

/-- The button pressed with the joystick pushed up; a reset draws the food at
`(6,6)`. -/
def pressButtonUp : Input := { button := true, x := 512, y := 100, draws := [(6, 6)] }

/-- The state after pausing in `beforeCollision`. -/
def pausedBeforeCollision : State := stateOf (loop beforeCollision pressButton)

/-- The state after the button is pressed again in `pausedBeforeCollision`, the
joystick up. -/
def afterResume : State := stateOf (loop pausedBeforeCollision pressButtonUp)

/-- The state after the first call from `startState` with the joystick at rest:
the snake has eaten the food at `(4,3)`, the new food is drawn at `(0,0)`. -/
def afterFirstMeal : State := stateOf (loop startState (neutral [(0, 0)]))

/-- The value a refresh shows, as the specification words it: the value clamped
to `[0, 9999]`. -/
def shownValue (value : Int) : Nat := (min (max value 0) 9999).toNat

/-- The paused state `pausedBeforeCollision` with the frame counter at `fc`. -/
def pausedAt (fc : Int) : State := { pausedBeforeCollision with frameCount := fc }

/-- The state after the button is pressed, the joystick at rest, in the paused
state whose frame counter is `INT_MAX`: the call resumes and the tick moves the
snake one cell left. -/
def afterWrap : State := stateOf (loop (pausedAt INT_MAX) pressButton)

/-! ## Basic facts about the embedding -/

theorem mem_cells {row col : Nat → Int} {n : Nat} {p : Int × Int} :
    p ∈ cells row col n ↔ ∃ i, i < n ∧ (row i, col i) = p := by
  simp [cells]

theorem length_cells (row col : Nat → Int) (n : Nat) : (cells row col n).length = n := by
  simp [cells]

theorem onSnake_iff {row col : Nat → Int} {n : Nat} {r c : Int} :
    onSnake row col n r c = true ↔ (r, c) ∈ cells row col n := by
  simp [onSnake, cells]

theorem onSnake_false_iff {row col : Nat → Int} {n : Nat} {r c : Int} :
    onSnake row col n r c = false ↔ (r, c) ∉ cells row col n := by
  rw [← onSnake_iff]; simp

theorem collides_iff {row col : Nat → Int} {n : Nat} {r c : Int} :
    collides row col n r c = true ↔ ∃ i, 1 ≤ i ∧ i < n ∧ row i = r ∧ col i = c := by
  simp only [collides, List.any_eq_true, List.mem_range'_1, Bool.and_eq_true, decide_eq_true_eq]
  constructor
  · rintro ⟨i, ⟨h1, h2⟩, h3⟩
    exact ⟨i, h1, by omega, h3⟩
  · rintro ⟨i, h1, h2, h3⟩
    exact ⟨i, ⟨h1, by omega⟩, h3⟩

theorem store_same (a : Nat → Int) (i : Nat) (v : Int) : store a i v i = v := by
  simp [store]

theorem store_other (a : Nat → Int) {i j : Nat} (v : Int) (h : j ≠ i) :
    store a i v j = a j := by
  simp [store, h]

/-- The shifting loop succeeds when its first write is inside the arrays, and then
every index in `[1, top]` holds what its left neighbour held. -/
theorem shiftBody_ok (top : Nat) : ∀ (row col : Nat → Int), top < MAX_SNAKE_LEN →
    ∃ rc, shiftBody row col top = .ok rc ∧
      (∀ j, rc.1 j = if 1 ≤ j ∧ j ≤ top then row (j - 1) else row j) ∧
      (∀ j, rc.2 j = if 1 ≤ j ∧ j ≤ top then col (j - 1) else col j) := by
  induction top with
  | zero =>
    intro row col _
    refine ⟨(row, col), rfl, ?_, ?_⟩ <;> intro j <;>
      · have hj : ¬ (1 ≤ j ∧ j ≤ 0) := by omega
        rw [if_neg hj]
  | succ i ih =>
    intro row col h
    obtain ⟨rc, hrc, h1, h2⟩ :=
      ih (store row (i + 1) (row i)) (store col (i + 1) (col i)) (by omega)
    refine ⟨rc, ?_, ?_, ?_⟩
    · simp [shiftBody, h, hrc]
    · intro j
      rw [h1 j]
      by_cases hj : j = i + 1
      · subst hj
        simp [store]
      · by_cases hji : 1 ≤ j ∧ j ≤ i
        · have : j - 1 ≠ i + 1 := by omega
          have hj2 : 1 ≤ j ∧ j ≤ i + 1 := by omega
          simp [hji, hj2, store, this]
        · have hj2 : ¬ (1 ≤ j ∧ j ≤ i + 1) := by omega
          simp [hji, hj2, store, hj]
    · intro j
      rw [h2 j]
      by_cases hj : j = i + 1
      · subst hj
        simp [store]
      · by_cases hji : 1 ≤ j ∧ j ≤ i
        · have : j - 1 ≠ i + 1 := by omega
          have hj2 : 1 ≤ j ∧ j ≤ i + 1 := by omega
          simp [hji, hj2, store, this]
        · have hj2 : ¬ (1 ≤ j ∧ j ≤ i + 1) := by omega
          simp [hji, hj2, store, hj]

/-- The shifting loop writes outside the arrays when it starts at `MAX_SNAKE_LEN`
or above. -/
theorem shiftBody_outOfBounds (row col : Nat → Int) (top : Nat)
    (h : MAX_SNAKE_LEN ≤ top) : shiftBody row col top = .error .outOfBounds := by
  cases top with
  | zero => simp [MAX_SNAKE_LEN] at h
  | succ i =>
    have : ¬ (i + 1 < MAX_SNAKE_LEN) := by omega
    simp [shiftBody, this]

/-- After the shift and the write of the head at index 0, the first `n + 1` cells
are the head followed by the old first `n` cells. -/
theorem cells_after_shift {row col row1 col1 : Nat → Int} (n : Nat) (hr hc : Int)
    (h1 : ∀ j, row1 j = if 1 ≤ j ∧ j ≤ n then row (j - 1) else row j)
    (h2 : ∀ j, col1 j = if 1 ≤ j ∧ j ≤ n then col (j - 1) else col j) :
    cells (store row1 0 hr) (store col1 0 hc) (n + 1) = (hr, hc) :: cells row col n := by
  unfold cells
  rw [List.range_succ_eq_map]
  simp only [List.map_cons, List.map_map, store_same]
  congr 1
  apply List.map_congr_left
  intro i hi
  have hi : i < n := List.mem_range.mp hi
  have hcond : 1 ≤ i + 1 ∧ i + 1 ≤ n := by omega
  simp [store, h1, h2, hcond]

theorem cells_pred (row col : Nat → Int) (n : Nat) :
    cells row col (n - 1) = (cells row col n).dropLast := by
  cases n with
  | zero => simp [cells]
  | succ k =>
    simp [cells, List.range_succ]

/-- What `placeFood` does, as a search: it returns the first draw that is not on
the snake, and does not return when there is none. -/
theorem placeFood_eq_find (row col : Nat → Int) (len : Nat) (draws : List (Int × Int)) :
    placeFood row col len draws =
      match draws.find? (fun d => !onSnake row col len d.1 d.2) with
      | some d => .ok d
      | none => .error .noReturn := by
  induction draws with
  | nil => rfl
  | cons d rest ih =>
    obtain ⟨r, c⟩ := d
    by_cases h : onSnake row col len r c = true
    · simp [placeFood, h, ih, List.find?]
    · simp [placeFood, h, List.find?]

theorem placeFood_ok {row col : Nat → Int} {len : Nat} {draws : List (Int × Int)}
    {p : Int × Int} (h : placeFood row col len draws = .ok p) :
    p ∈ draws ∧ p ∉ cells row col len := by
  rw [placeFood_eq_find] at h
  split at h
  · rename_i d hd
    cases h
    have := List.find?_some hd
    refine ⟨List.mem_of_find?_eq_some hd, ?_⟩
    rw [← onSnake_false_iff]
    simpa using this
  · cases h

theorem placeFood_returns {row col : Nat → Int} {len : Nat} {draws : List (Int × Int)}
    (h : ∃ d ∈ draws, d ∉ cells row col len) :
    ∃ p, placeFood row col len draws = .ok p := by
  rw [placeFood_eq_find]
  obtain ⟨d, hd, hoff⟩ := h
  cases hf : draws.find? (fun d => !onSnake row col len d.1 d.2) with
  | some p => exact ⟨p, rfl⟩
  | none =>
    rw [List.find?_eq_none] at hf
    have := hf d hd
    rw [← onSnake_false_iff] at hoff
    simp [hoff] at this

theorem placeFood_noReturn {row col : Nat → Int} {len : Nat} {draws : List (Int × Int)}
    (h : ∀ d ∈ draws, d ∈ cells row col len) :
    placeFood row col len draws = .error .noReturn := by
  rw [placeFood_eq_find]
  have : draws.find? (fun d => !onSnake row col len d.1 d.2) = none := by
    rw [List.find?_eq_none]
    intro d hd
    have := h d hd
    rw [← onSnake_iff] at this
    simp [this]
  rw [this]

/-! ## The direction update and the candidate head -/

theorem joystickDir_cases (d x y : Int) :
    joystickDir d x y = d ∨ joystickDir d x y = 0 ∨ joystickDir d x y = 1 ∨
      joystickDir d x y = 2 ∨ joystickDir d x y = 3 := by
  unfold joystickDir
  split_ifs <;> simp

theorem updateDirection_cases (d x y : Int) :
    updateDirection d x y = d ∨ updateDirection d x y = 0 ∨ updateDirection d x y = 1 ∨
      updateDirection d x y = 2 ∨ updateDirection d x y = 3 := by
  have := joystickDir_cases d x y
  unfold updateDirection
  dsimp only
  split_ifs
  · exact this
  · exact Or.inl rfl

theorem updateDirection_range {d : Int} (x y : Int) (h : 0 ≤ d ∧ d < 4) :
    0 ≤ updateDirection d x y ∧ updateDirection d x y < 4 := by
  rcases updateDirection_cases d x y with h1 | h1 | h1 | h1 | h1 <;> rw [h1] <;> omega

theorem nextHead_eq_emod {r c : Int} (d : Int) (hr : 0 ≤ r) (hc : 0 ≤ c) :
    nextHead r c d = ((r + DR d + 8) % 8, (c + DC d + 12) % 12) := by
  have h1 : -1 ≤ DR d ∧ -1 ≤ DC d := by
    unfold DR DC; split_ifs <;> omega
  unfold nextHead ROWS COLS
  rw [Int.tmod_eq_emod (by omega) (by omega), Int.tmod_eq_emod (by omega) (by omega)]

theorem nextHead_inGrid {r c : Int} (d : Int) (hr : 0 ≤ r) (hc : 0 ≤ c) :
    inGrid (nextHead r c d) := by
  rw [nextHead_eq_emod d hr hc]
  unfold inGrid ROWS COLS
  dsimp only
  omega

theorem nextHead_ne {r c d : Int} (hp : inGrid (r, c)) (hd : 0 ≤ d ∧ d < 4) :
    nextHead r c d ≠ (r, c) := by
  unfold inGrid ROWS COLS at hp
  dsimp only at hp
  rw [nextHead_eq_emod d hp.1 hp.2.2.1]
  have hd4 : d = 0 ∨ d = 1 ∨ d = 2 ∨ d = 3 := by omega
  intro h
  have h1 := congrArg Prod.fst h
  have h2 := congrArg Prod.snd h
  dsimp only at h1 h2
  rcases hd4 with h0 | h0 | h0 | h0 <;> subst h0 <;> simp [DR, DC] at h1 h2 <;> omega

/-! ## The branches of one call of `loop()` -/

theorem loop_running {s : State} {inp : Input} (h : runsTick s inp) :
    loop s inp = tick { s with paused := false } inp := by
  obtain ⟨h1, h2⟩ := h
  unfold loop
  cases hb : inp.button <;> cases hp : s.paused <;> simp_all
  cases s
  simp_all

theorem loop_not_running {s : State} {inp : Input} (h : ¬ runsTick s inp) {t : State}
    (ht : loop s inp = .ok t) :
    t.snakeRow = s.snakeRow ∧ t.snakeCol = s.snakeCol ∧ t.snakeLen = s.snakeLen ∧
      t.direction = s.direction ∧ t.score = s.score ∧ t.gameDelay = s.gameDelay ∧
      t.foodRow = s.foodRow ∧ t.foodCol = s.foodCol := by
  unfold runsTick at h
  unfold loop at ht
  cases hg : s.gameOver <;> cases hb : inp.button <;> cases hp : s.paused <;>
    simp_all <;> subst ht <;> simp

/-- The tick stops at the read of `DR` / `DC` when the direction is no index. -/
theorem tick_bad_direction {s : State} {inp : Input}
    (h : ¬ (0 ≤ updateDirection s.direction inp.x inp.y ∧
      updateDirection s.direction inp.x inp.y < 4)) :
    tick s inp = .error .outOfBounds := by
  unfold tick
  simp only [h, if_false]

/-- The collision branch, when `placeFood` comes back with `food`. -/
theorem tick_collide {s : State} {inp : Input} {food : Int × Int}
    (hdir : 0 ≤ updateDirection s.direction inp.x inp.y ∧
      updateDirection s.direction inp.x inp.y < 4)
    (hcol : collides s.snakeRow s.snakeCol s.snakeLen (candidate s inp).1 (candidate s inp).2
      = true)
    (hfood : placeFood (writeInitialCells s.snakeRow s.snakeCol).1
      (writeInitialCells s.snakeRow s.snakeCol).2 3 inp.draws = .ok food) :
    tick s inp = .ok
      { snakeRow := (writeInitialCells s.snakeRow s.snakeCol).1,
        snakeCol := (writeInitialCells s.snakeRow s.snakeCol).2,
        snakeLen := 3, direction := 1, paused := s.paused, gameOver := true, score := 0,
        foodRow := food.1, foodCol := food.2, frameCount := s.frameCount,
        gameDelay := INITIAL_DELAY } := by
  unfold candidate at hcol
  unfold tick
  simp only [hdir, and_self, if_true, hcol, resetSnake, hfood]

/-- The collision branch, when `placeFood` does not come back. -/
theorem tick_collide_stop {s : State} {inp : Input} {e : Stop}
    (hdir : 0 ≤ updateDirection s.direction inp.x inp.y ∧
      updateDirection s.direction inp.x inp.y < 4)
    (hcol : collides s.snakeRow s.snakeCol s.snakeLen (candidate s inp).1 (candidate s inp).2
      = true)
    (hfood : placeFood (writeInitialCells s.snakeRow s.snakeCol).1
      (writeInitialCells s.snakeRow s.snakeCol).2 3 inp.draws = .error e) :
    tick s inp = .error e := by
  unfold candidate at hcol
  unfold tick
  simp only [hdir, and_self, if_true, hcol, resetSnake, hfood]

theorem cells_writeInitialCells (row col : Nat → Int) :
    cells (writeInitialCells row col).1 (writeInitialCells row col).2 3 =
      [(4, 2), (4, 1), (4, 0)] := by
  simp [cells, writeInitialCells, store, List.range_succ, ROWS]

/-- The eating branch is `eat` on the state with the new direction. -/
theorem tick_eat {s : State} {inp : Input}
    (hdir : 0 ≤ updateDirection s.direction inp.x inp.y ∧
      updateDirection s.direction inp.x inp.y < 4)
    (hcol : collides s.snakeRow s.snakeCol s.snakeLen (candidate s inp).1 (candidate s inp).2
      = false)
    (hate : candidate s inp = (s.foodRow, s.foodCol)) :
    tick s inp = eat { s with direction := updateDirection s.direction inp.x inp.y }
      (candidate s inp).1 (candidate s inp).2 inp.draws := by
  unfold candidate at hcol hate
  have h1 := congrArg Prod.fst hate
  have h2 := congrArg Prod.snd hate
  dsimp only at h1 h2
  unfold tick candidate
  simp only [hdir, and_self, if_true, hcol, Bool.false_eq_true, if_false]
  rw [if_pos ⟨h1, h2⟩]

/-- The move branch is `move` on the state with the new direction. -/
theorem tick_move {s : State} {inp : Input}
    (hdir : 0 ≤ updateDirection s.direction inp.x inp.y ∧
      updateDirection s.direction inp.x inp.y < 4)
    (hcol : collides s.snakeRow s.snakeCol s.snakeLen (candidate s inp).1 (candidate s inp).2
      = false)
    (hate : candidate s inp ≠ (s.foodRow, s.foodCol)) :
    tick s inp = move { s with direction := updateDirection s.direction inp.x inp.y }
      (candidate s inp).1 (candidate s inp).2 := by
  unfold candidate at hcol hate
  have h1 : ¬ ((nextHead (s.snakeRow 0) (s.snakeCol 0)
      (updateDirection s.direction inp.x inp.y)).1 = s.foodRow ∧
      (nextHead (s.snakeRow 0) (s.snakeCol 0)
      (updateDirection s.direction inp.x inp.y)).2 = s.foodCol) := by
    rintro ⟨ha, hb⟩
    exact hate (Prod.ext ha hb)
  unfold tick candidate
  simp only [hdir, and_self, if_true, hcol, h1, Bool.false_eq_true, if_false]

/-- What `eat` leaves when there is room for one more cell and `placeFood` comes
back: the head in front of the old snake, and the bookkeeping of a meal. -/
theorem eat_ok (s : State) (hr hc : Int) (draws : List (Int × Int))
    (hlen : s.snakeLen < MAX_SNAKE_LEN)
    (hdraw : ∃ d ∈ draws, d ∉ (hr, hc) :: s.snake) :
    ∃ t, eat s hr hc draws = .ok t ∧
      t.snake = (hr, hc) :: s.snake ∧ t.snakeLen = s.snakeLen + 1 ∧
      t.score = s.score + 1 ∧ t.gameDelay = max MIN_DELAY (s.gameDelay - DELAY_STEP) ∧
      placeFood t.snakeRow t.snakeCol t.snakeLen draws = .ok (t.foodRow, t.foodCol) ∧
      t.direction = s.direction ∧ t.paused = s.paused ∧ t.gameOver = s.gameOver ∧
      t.frameCount = wrapInt (s.frameCount + 1) := by
  obtain ⟨rc, hrc, h1, h2⟩ := shiftBody_ok s.snakeLen s.snakeRow s.snakeCol hlen
  have hcells : cells (store rc.1 0 hr) (store rc.2 0 hc) (s.snakeLen + 1) =
      (hr, hc) :: s.snake := cells_after_shift s.snakeLen hr hc h1 h2
  rw [← hcells] at hdraw
  obtain ⟨food, hfood⟩ := placeFood_returns hdraw
  refine ⟨{ s with
      score := s.score + 1,
      snakeRow := store rc.1 0 hr, snakeCol := store rc.2 0 hc,
      snakeLen := s.snakeLen + 1,
      foodRow := food.1, foodCol := food.2,
      gameDelay := max MIN_DELAY (s.gameDelay - DELAY_STEP),
      frameCount := wrapInt (s.frameCount + 1) }, ?_, ?_⟩
  · unfold eat
    simp only [hrc, hfood]
  · exact ⟨hcells, rfl, rfl, rfl, hfood, rfl, rfl, rfl, rfl⟩

/-- When every draw lands on the grown snake, `eat` never comes back. -/
theorem eat_noReturn (s : State) (hr hc : Int) (draws : List (Int × Int))
    (hlen : s.snakeLen < MAX_SNAKE_LEN)
    (hdraw : ∀ d ∈ draws, d ∈ (hr, hc) :: s.snake) :
    eat s hr hc draws = .error .noReturn := by
  obtain ⟨rc, hrc, h1, h2⟩ := shiftBody_ok s.snakeLen s.snakeRow s.snakeCol hlen
  have hcells : cells (store rc.1 0 hr) (store rc.2 0 hc) (s.snakeLen + 1) =
      (hr, hc) :: s.snake := cells_after_shift s.snakeLen hr hc h1 h2
  rw [← hcells] at hdraw
  have hfood := placeFood_noReturn hdraw
  unfold eat
  simp only [hrc, hfood]

/-- With no room left in the arrays, `eat` writes outside them. -/
theorem eat_outOfBounds (s : State) (hr hc : Int) (draws : List (Int × Int))
    (hlen : MAX_SNAKE_LEN ≤ s.snakeLen) :
    eat s hr hc draws = .error .outOfBounds := by
  unfold eat
  simp only [shiftBody_outOfBounds _ _ _ hlen]

/-- What `move` leaves: the head in front of the old snake without its tail. -/
theorem move_ok (s : State) (hr hc : Int)
    (h1len : 1 ≤ s.snakeLen) (hlen : s.snakeLen ≤ MAX_SNAKE_LEN) :
    ∃ t, move s hr hc = .ok t ∧
      t.snake = (hr, hc) :: s.snake.dropLast ∧ t.snakeLen = s.snakeLen ∧
      t.score = s.score ∧ t.gameDelay = s.gameDelay ∧
      t.foodRow = s.foodRow ∧ t.foodCol = s.foodCol ∧
      t.direction = s.direction ∧ t.paused = s.paused ∧ t.gameOver = s.gameOver ∧
      t.frameCount = wrapInt (s.frameCount + 1) := by
  obtain ⟨rc, hrc, h1, h2⟩ :=
    shiftBody_ok (s.snakeLen - 1) s.snakeRow s.snakeCol (by omega)
  have hcells := cells_after_shift (s.snakeLen - 1) hr hc h1 h2
  rw [Nat.sub_add_cancel h1len, cells_pred] at hcells
  refine ⟨{ s with
      snakeRow := store rc.1 0 hr, snakeCol := store rc.2 0 hc,
      frameCount := wrapInt (s.frameCount + 1) }, ?_, ?_⟩
  · unfold move
    simp only [hrc]
  · exact ⟨hcells, rfl, rfl, rfl, rfl, rfl, rfl, rfl, rfl, rfl⟩

theorem collides_false_of_onSnake_false {row col : Nat → Int} {n : Nat} {r c : Int}
    (h : onSnake row col n r c = false) : collides row col n r c = false := by
  rw [onSnake_false_iff, mem_cells] at h
  by_contra hc
  rw [Bool.not_eq_false, collides_iff] at hc
  obtain ⟨i, _, hi, h1, h2⟩ := hc
  exact h ⟨i, hi, by rw [h1, h2]⟩

set_option maxRecDepth 100000 in
/-- Together with the free cell `(7, 0)` the snake of `fullBoard` covers the grid. -/
theorem fullBoard_covers (d : Int × Int) (h : inGrid d) :
    d ∈ (7, 0) :: fullBoard.snake := by
  obtain ⟨r, c⟩ := d
  obtain ⟨h1, h2, h3, h4⟩ := h
  simp only [ROWS, COLS] at h1 h2 h3 h4
  interval_cases r <;> interval_cases c <;> decide

/-- The running call of `loop()` in the eating case, as `eat`. -/
theorem loop_eat {s : State} {inp : Input} (hrun : runsTick s inp)
    (hdir : 0 ≤ s.direction ∧ s.direction < 4)
    (hcol : collides s.snakeRow s.snakeCol s.snakeLen (candidate s inp).1 (candidate s inp).2
      = false)
    (hate : candidate s inp = (s.foodRow, s.foodCol)) :
    loop s inp = eat { s with
        paused := false, direction := updateDirection s.direction inp.x inp.y }
      (candidate s inp).1 (candidate s inp).2 inp.draws := by
  rw [loop_running hrun]
  exact tick_eat (s := { s with paused := false }) (updateDirection_range inp.x inp.y hdir)
    hcol hate

/-- The running call of `loop()` in the plain move case, as `move`. -/
theorem loop_move {s : State} {inp : Input} (hrun : runsTick s inp)
    (hdir : 0 ≤ s.direction ∧ s.direction < 4)
    (hcol : collides s.snakeRow s.snakeCol s.snakeLen (candidate s inp).1 (candidate s inp).2
      = false)
    (hate : candidate s inp ≠ (s.foodRow, s.foodCol)) :
    loop s inp = move { s with
        paused := false, direction := updateDirection s.direction inp.x inp.y }
      (candidate s inp).1 (candidate s inp).2 := by
  rw [loop_running hrun]
  exact tick_move (s := { s with paused := false }) (updateDirection_range inp.x inp.y hdir)
    hcol hate

/-- C1 (amended). In a running call whose candidate head is off the snake and on
the food cell, with room for one more cell in the arrays: if some draw lands off
the grown snake, the call returns with the snake grown at the head (candidate
head, then all old cells in order), the score up by one, the delay lowered by 15
but not below 60, and the food on the first draw that is off the grown snake; if
every draw lands on the grown snake, the call never returns. -/
theorem eating_tick_grows (s : State) (inp : Input)
    (hrun : runsTick s inp)
    (hdir : 0 ≤ s.direction ∧ s.direction < 4)
    (hlen : s.snakeLen < MAX_SNAKE_LEN)
    (hbody : onSnake s.snakeRow s.snakeCol s.snakeLen
      (candidate s inp).1 (candidate s inp).2 = false)
    (hfood : candidate s inp = (s.foodRow, s.foodCol)) :
    ((∃ d ∈ inp.draws, d ∉ candidate s inp :: s.snake) →
      ∃ t, loop s inp = .ok t ∧
        t.snake = candidate s inp :: s.snake ∧
        t.snakeLen = s.snakeLen + 1 ∧
        t.score = s.score + 1 ∧
        t.gameDelay = max 60 (s.gameDelay - 15) ∧
        placeFood t.snakeRow t.snakeCol t.snakeLen inp.draws = .ok (t.foodRow, t.foodCol) ∧
        (t.foodRow, t.foodCol) ∈ inp.draws ∧
        (t.foodRow, t.foodCol) ∉ t.snake) ∧
    ((∀ d ∈ inp.draws, d ∈ candidate s inp :: s.snake) →
      loop s inp = .error .noReturn) := by
  have hloop := loop_eat hrun hdir (collides_false_of_onSnake_false hbody) hfood
  constructor
  · intro hdraw
    obtain ⟨t, ht, h1, h2, h3, h4, h5, -⟩ :=
      eat_ok { s with
        paused := false, direction := updateDirection s.direction inp.x inp.y }
        (candidate s inp).1 (candidate s inp).2 inp.draws hlen hdraw
    refine ⟨t, hloop.trans ht, h1, h2, h3, h4, h5, (placeFood_ok h5).1, (placeFood_ok h5).2⟩
  · intro hdraw
    rw [hloop]
    exact eat_noReturn { s with
        paused := false, direction := updateDirection s.direction inp.x inp.y }
        (candidate s inp).1 (candidate s inp).2 inp.draws hlen hdraw

/-- C1, the scenario of the specification: `[(4,2),(4,1),(4,0)]` heading right with
the food at `(4,3)` and delay 220 becomes `[(4,3),(4,2),(4,1),(4,0)]`, score 1,
delay 205. -/
theorem eating_tick_grows_witness :
    runsTick scenarioEat (neutral [(4, 2), (1, 7)]) ∧
    candidate scenarioEat (neutral [(4, 2), (1, 7)]) = (4, 3) ∧
    ∃ t, loop scenarioEat (neutral [(4, 2), (1, 7)]) = .ok t ∧
      t.snake = [(4, 3), (4, 2), (4, 1), (4, 0)] ∧ t.snakeLen = 4 ∧ t.score = 1 ∧
      t.gameDelay = 205 ∧ (t.foodRow, t.foodCol) ∉ t.snake := by
  refine ⟨by decide, by decide, ?_⟩
  obtain ⟨t, h0, h1, h2, h3, h4, -, -, h7⟩ :=
    (eating_tick_grows scenarioEat (neutral [(4, 2), (1, 7)]) (by decide) (by decide)
      (by decide) (by decide) (by decide)).1 ⟨(1, 7), by decide, by decide⟩
  exact ⟨t, h0, h1, h2, h3, h4, h7⟩

set_option maxRecDepth 100000 in
/-- C1 as stated fails on a full board. `fullBoard` is a running state with 95
distinct cells inside the grid; its candidate head `(7, 0)` is off the snake and
is the food cell; yet whatever cells of the grid `random` draws, the call never
returns, so it yields no new food cell. -/
theorem eating_tick_full_board_never_returns :
    runsTick fullBoard (neutral []) ∧
    (∀ p ∈ fullBoard.snake, inGrid p) ∧ fullBoard.snake.Nodup ∧
    onSnake fullBoard.snakeRow fullBoard.snakeCol fullBoard.snakeLen
      (candidate fullBoard (neutral [])).1 (candidate fullBoard (neutral [])).2 = false ∧
    candidate fullBoard (neutral []) = (fullBoard.foodRow, fullBoard.foodCol) ∧
    ∀ draws : List (Int × Int), (∀ d ∈ draws, inGrid d) →
      loop fullBoard (neutral draws) = .error .noReturn := by
  refine ⟨by decide, by decide, by decide, by decide, by decide, ?_⟩
  intro draws hd
  have hrun : runsTick fullBoard (neutral draws) := ⟨rfl, rfl⟩
  have hcand : candidate fullBoard (neutral draws) = (7, 0) :=
    (by decide : candidate fullBoard (neutral []) = (7, 0))
  have hcol : collides fullBoard.snakeRow fullBoard.snakeCol fullBoard.snakeLen
      (candidate fullBoard (neutral draws)).1 (candidate fullBoard (neutral draws)).2
      = false := by
    rw [hcand]; decide
  rw [loop_eat hrun (by decide) hcol (by rw [hcand]; rfl)]
  apply eat_noReturn
  · exact (by decide : 95 < MAX_SNAKE_LEN)
  · intro d hdd
    rw [hcand]
    exact fullBoard_covers d (hd d hdd)

/-- C2. In a running call whose candidate head is neither on the snake nor on the
food cell, the call returns with the candidate head in front of all old cells
but the last; length, score, delay and food cell are unchanged. -/
theorem plain_tick_moves (s : State) (inp : Input)
    (hrun : runsTick s inp)
    (hdir : 0 ≤ s.direction ∧ s.direction < 4)
    (hlen : 1 ≤ s.snakeLen ∧ s.snakeLen ≤ MAX_SNAKE_LEN)
    (hbody : onSnake s.snakeRow s.snakeCol s.snakeLen
      (candidate s inp).1 (candidate s inp).2 = false)
    (hfood : candidate s inp ≠ (s.foodRow, s.foodCol)) :
    ∃ t, loop s inp = .ok t ∧
      t.snake = candidate s inp :: s.snake.dropLast ∧
      t.snake.length = s.snake.length ∧
      t.snakeLen = s.snakeLen ∧
      t.score = s.score ∧
      t.gameDelay = s.gameDelay ∧
      t.foodRow = s.foodRow ∧ t.foodCol = s.foodCol := by
  have hloop := loop_move hrun hdir (collides_false_of_onSnake_false hbody) hfood
  obtain ⟨t, ht, h1, h2, h3, h4, h5, h6, -⟩ :=
    move_ok { s with
      paused := false, direction := updateDirection s.direction inp.x inp.y }
      (candidate s inp).1 (candidate s inp).2 hlen.1 hlen.2
  refine ⟨t, hloop.trans ht, h1, ?_, h2, h3, h4, h5, h6⟩
  unfold State.snake
  rw [length_cells, length_cells, h2]

/-- C2 on a concrete state: `[(4,2),(4,1),(4,0)]` heading right with the food at
`(1,7)` becomes `[(4,3),(4,2),(4,1)]`. -/
theorem plain_tick_moves_witness :
    runsTick scenarioMove (neutral []) ∧
    ∃ t, loop scenarioMove (neutral []) = .ok t ∧
      t.snake = [(4, 3), (4, 2), (4, 1)] ∧ t.snakeLen = 3 ∧ t.score = 0 ∧
      t.gameDelay = 220 ∧ t.foodRow = 1 ∧ t.foodCol = 7 := by
  refine ⟨by decide, ?_⟩
  obtain ⟨t, h0, h1, -, h2, h3, h4, h5, h6⟩ :=
    plain_tick_moves scenarioMove (neutral []) (by decide) (by decide) (by decide)
      (by decide) (by decide)
  exact ⟨t, h0, h1, h2, h3, h4, h5, h6⟩

/-- The running call of `loop()` in the collision case, when `placeFood` on the
reset snake comes back with `food`. -/
theorem loop_collide {s : State} {inp : Input} {food : Int × Int} (hrun : runsTick s inp)
    (hdir : 0 ≤ s.direction ∧ s.direction < 4)
    (hcol : collides s.snakeRow s.snakeCol s.snakeLen (candidate s inp).1 (candidate s inp).2
      = true)
    (hfood : placeFood (writeInitialCells s.snakeRow s.snakeCol).1
      (writeInitialCells s.snakeRow s.snakeCol).2 3 inp.draws = .ok food) :
    loop s inp = .ok
      { snakeRow := (writeInitialCells s.snakeRow s.snakeCol).1,
        snakeCol := (writeInitialCells s.snakeRow s.snakeCol).2,
        snakeLen := 3, direction := 1, paused := false, gameOver := true, score := 0,
        foodRow := food.1, foodCol := food.2, frameCount := s.frameCount,
        gameDelay := INITIAL_DELAY } := by
  rw [loop_running hrun]
  exact tick_collide (s := { s with paused := false })
    (updateDirection_range inp.x inp.y hdir) hcol hfood

/-- The running call of `loop()` in the collision case, when `placeFood` on the
reset snake does not come back. -/
theorem loop_collide_stop {s : State} {inp : Input} {e : Stop} (hrun : runsTick s inp)
    (hdir : 0 ≤ s.direction ∧ s.direction < 4)
    (hcol : collides s.snakeRow s.snakeCol s.snakeLen (candidate s inp).1 (candidate s inp).2
      = true)
    (hfood : placeFood (writeInitialCells s.snakeRow s.snakeCol).1
      (writeInitialCells s.snakeRow s.snakeCol).2 3 inp.draws = .error e) :
    loop s inp = .error e := by
  rw [loop_running hrun]
  exact tick_collide_stop (s := { s with paused := false })
    (updateDirection_range inp.x inp.y hdir) hcol hfood

/-- C3. In a running call whose tick finds a collision: if some draw lands off the
three initial cells, the call returns in game-over mode with the game reset
(snake `[(4,2),(4,1),(4,0)]` of length 3, direction right, score 0, delay 220)
and the food on the first draw that is off that snake; if every draw lands on
the three cells, the call never returns. -/
theorem collision_resets (s : State) (inp : Input)
    (hrun : runsTick s inp)
    (hdir : 0 ≤ s.direction ∧ s.direction < 4)
    (hcol : collides s.snakeRow s.snakeCol s.snakeLen
      (candidate s inp).1 (candidate s inp).2 = true) :
    ((∃ d ∈ inp.draws, d ∉ [((4 : Int), (2 : Int)), (4, 1), (4, 0)]) →
      ∃ t, loop s inp = .ok t ∧
        t.gameOver = true ∧ t.paused = false ∧
        t.snake = [(4, 2), (4, 1), (4, 0)] ∧ t.snakeLen = 3 ∧
        t.direction = 1 ∧ t.score = 0 ∧ t.gameDelay = 220 ∧
        placeFood t.snakeRow t.snakeCol t.snakeLen inp.draws = .ok (t.foodRow, t.foodCol) ∧
        (t.foodRow, t.foodCol) ∈ inp.draws ∧
        (t.foodRow, t.foodCol) ∉ t.snake) ∧
    ((∀ d ∈ inp.draws, d ∈ [((4 : Int), (2 : Int)), (4, 1), (4, 0)]) →
      loop s inp = .error .noReturn) := by
  have hinit := cells_writeInitialCells s.snakeRow s.snakeCol
  constructor
  · intro hdraw
    rw [← hinit] at hdraw
    obtain ⟨food, hfood⟩ := placeFood_returns hdraw
    refine ⟨_, loop_collide hrun hdir hcol hfood, rfl, rfl, hinit, rfl, rfl, rfl, rfl,
      hfood, (placeFood_ok hfood).1, (placeFood_ok hfood).2⟩
  · intro hdraw
    rw [← hinit] at hdraw
    exact loop_collide_stop hrun hdir hcol (placeFood_noReturn hdraw)

/-- C3, the scenario of the specification: the snake on `(0,0)`-`(0,2)` with head
`(0,2)` heading left runs into its own cell `(0,1)`; the call ends in game-over
mode with the initial configuration. -/
theorem collision_resets_witness :
    runsTick scenarioCollide (neutral [(4, 1), (2, 9)]) ∧
    candidate scenarioCollide (neutral [(4, 1), (2, 9)]) = (0, 1) ∧
    ∃ t, loop scenarioCollide (neutral [(4, 1), (2, 9)]) = .ok t ∧
      t.gameOver = true ∧ t.snake = [(4, 2), (4, 1), (4, 0)] ∧ t.snakeLen = 3 ∧
      t.direction = 1 ∧ t.score = 0 ∧ t.gameDelay = 220 ∧
      (t.foodRow, t.foodCol) ∉ t.snake := by
  refine ⟨by decide, by decide, ?_⟩
  obtain ⟨t, h0, h1, -, h3, h4, h5, h6, h7, -, -, h10⟩ :=
    (collision_resets scenarioCollide (neutral [(4, 1), (2, 9)]) (by decide) (by decide)
      (by decide)).1 ⟨(2, 9), by decide, by decide⟩
  exact ⟨t, h0, h1, h3, h4, h5, h6, h7, h10⟩

theorem joystickDir_eq_priorityCandidate (d x y : Int) :
    joystickDir d x y = priorityCandidate d x y := by
  rfl

/-- C5. For a current direction `d` in `0..3` and any joystick readings, the
direction after the update is never the reverse `(d + 2) mod 4`; it is the
joystick candidate (Y over X) when that is not the reverse of `d`, and `d`
otherwise. -/
theorem direction_never_reverses (d x y : Int) (hd : 0 ≤ d ∧ d < 4) :
    updateDirection d x y ≠ (d + 2) % 4 ∧
    updateDirection d x y =
      if priorityCandidate d x y = (d + 2) % 4 then d else priorityCandidate d x y := by
  have hc : joystickDir d x y = d ∨ joystickDir d x y = 0 ∨ joystickDir d x y = 1 ∨
      joystickDir d x y = 2 ∨ joystickDir d x y = 3 := joystickDir_cases d x y
  have hnn : 0 ≤ joystickDir d x y + 2 := by omega
  rw [← joystickDir_eq_priorityCandidate]
  unfold updateDirection
  dsimp only
  rw [Int.tmod_eq_emod hnn (by omega)]
  constructor
  · split_ifs <;> omega
  · split_ifs <;> omega

/-- C5 at `d = 1` (right): pushing the stick left (`x = 100`) is the reverse and is
refused, pushing it down (`y = 900`) is taken. -/
theorem direction_never_reverses_witness :
    updateDirection 1 100 512 = 1 ∧ updateDirection 1 512 900 = 2 ∧
    updateDirection 1 100 512 ≠ (1 + 2) % 4 := by
  have h1 := direction_never_reverses 1 100 512 (by decide)
  have h2 := direction_never_reverses 1 512 900 (by decide)
  refine ⟨?_, ?_, h1.1⟩
  · rw [h1.2]; decide
  · rw [h2.2]; decide

/-- C6. For a head cell inside the grid and a direction in `0..3`, the candidate
head is `((r + DR[d] + 8) mod 8, (c + DC[d] + 12) mod 12)`; it lies inside the
grid; and it is the neighbouring cell in that direction, each of the four edges
leading to the opposite edge. -/
theorem candidate_head_wraps (r c d : Int)
    (hr : 0 ≤ r ∧ r < 8) (hc : 0 ≤ c ∧ c < 12) (hd : 0 ≤ d ∧ d < 4) :
    nextHead r c d = ((r + DR d + 8) % 8, (c + DC d + 12) % 12) ∧
    (0 ≤ (nextHead r c d).1 ∧ (nextHead r c d).1 < 8 ∧
      0 ≤ (nextHead r c d).2 ∧ (nextHead r c d).2 < 12) ∧
    (d = 0 → nextHead r c d = (if r = 0 then 7 else r - 1, c)) ∧
    (d = 1 → nextHead r c d = (r, if c = 11 then 0 else c + 1)) ∧
    (d = 2 → nextHead r c d = (if r = 7 then 0 else r + 1, c)) ∧
    (d = 3 → nextHead r c d = (r, if c = 0 then 11 else c - 1)) := by
  have h := nextHead_eq_emod d hr.1 hc.1
  refine ⟨h, nextHead_inGrid d hr.1 hc.1, ?_, ?_, ?_, ?_⟩ <;> intro h0 <;> subst h0 <;>
    rw [h] <;> simp only [DR, DC] <;> apply Prod.ext <;> dsimp only <;> split_ifs <;> omega

/-- C6, the scenario of the specification: head `(0,5)` moving up gives `(7,5)`. -/
theorem candidate_head_wraps_witness : nextHead 0 5 0 = (7, 5) := by
  have h := (candidate_head_wraps 0 5 0 (by decide) (by decide) (by decide)).2.2.1 rfl
  simpa using h

/-! ## The invariant holds in every reachable state -/

/-- Distinct cells inside the 8 x 12 grid are at most 96. -/
theorem length_le_of_nodup_inGrid {l : List (Int × Int)} (hnd : l.Nodup)
    (hin : ∀ p ∈ l, inGrid p) : l.length ≤ MAX_SNAKE_LEN := by
  have hsub : l.toFinset ⊆ Finset.Icc (0 : Int) 7 ×ˢ Finset.Icc (0 : Int) 11 := by
    intro p hp
    have h := hin p (List.mem_toFinset.mp hp)
    unfold inGrid ROWS COLS at h
    rw [Finset.mem_product, Finset.mem_Icc, Finset.mem_Icc]
    omega
  have hcard := Finset.card_le_card hsub
  rw [List.toFinset_card_of_nodup hnd, Finset.card_product, Int.card_Icc, Int.card_Icc] at hcard
  simpa [MAX_SNAKE_LEN] using hcard

theorem head_mem_snake {s : State} (h : 1 ≤ s.snakeLen) :
    (s.snakeRow 0, s.snakeCol 0) ∈ s.snake :=
  mem_cells.mpr ⟨0, h, rfl⟩

/-- In a state with the invariant the candidate head is inside the grid. -/
theorem candidate_inGrid {s : State} (inp : Input) (hinv : Inv s) :
    inGrid (candidate s inp) := by
  have hh := hinv.2.1 _ (head_mem_snake hinv.1)
  exact nextHead_inGrid _ hh.1 hh.2.2.1

/-- In a state with the invariant the collision loop, which starts at index 1,
decides the same as `onSnake` on the candidate head: the head cell itself is
never the candidate. -/
theorem collides_eq_onSnake {s : State} (inp : Input) (hinv : Inv s) :
    collides s.snakeRow s.snakeCol s.snakeLen (candidate s inp).1 (candidate s inp).2 =
      onSnake s.snakeRow s.snakeCol s.snakeLen (candidate s inp).1 (candidate s inp).2 := by
  have hh := hinv.2.1 _ (head_mem_snake hinv.1)
  have hne : candidate s inp ≠ (s.snakeRow 0, s.snakeCol 0) :=
    nextHead_ne hh (updateDirection_range inp.x inp.y hinv.2.2.2)
  rw [Bool.eq_iff_iff, collides_iff, onSnake_iff, mem_cells]
  constructor
  · rintro ⟨i, _, hi, h1, h2⟩
    exact ⟨i, hi, by rw [h1, h2]⟩
  · rintro ⟨i, hi, h⟩
    have h1 := congrArg Prod.fst h
    have h2 := congrArg Prod.snd h
    dsimp only at h1 h2
    refine ⟨i, ?_, hi, h1, h2⟩
    by_contra h0
    have hi0 : i = 0 := by omega
    subst hi0
    exact hne h.symm

theorem candidate_not_mem_snake {s : State} (inp : Input) (hinv : Inv s)
    (hcol : collides s.snakeRow s.snakeCol s.snakeLen (candidate s inp).1 (candidate s inp).2
      = false) : candidate s inp ∉ s.snake := by
  rw [collides_eq_onSnake inp hinv, onSnake_false_iff] at hcol
  exact hcol

theorem inv_of_initial_cells {s : State} (hlen : s.snakeLen = 3)
    (hsnake : s.snake = [(4, 2), (4, 1), (4, 0)]) (hdir : s.direction = 1) : Inv s := by
  refine ⟨by omega, ?_, ?_, by omega⟩
  · rw [hsnake]; decide
  · rw [hsnake]; decide

theorem inv_setup {draws : List (Int × Int)} {s : State} (h : setup draws = .ok s) :
    Inv s := by
  unfold setup at h
  dsimp only at h
  split at h
  · cases h
  · cases h
    exact inv_of_initial_cells rfl (cells_writeInitialCells _ _) rfl

/-- A running call that eats returns only from a state with room in the arrays,
and then the snake has grown by the candidate head. -/
theorem loop_eat_ok {s : State} {inp : Input} {t : State} (hrun : runsTick s inp)
    (hdir : 0 ≤ s.direction ∧ s.direction < 4)
    (hcol : collides s.snakeRow s.snakeCol s.snakeLen (candidate s inp).1 (candidate s inp).2
      = false)
    (hate : candidate s inp = (s.foodRow, s.foodCol))
    (ht : loop s inp = .ok t) :
    s.snakeLen < MAX_SNAKE_LEN ∧ t.snake = candidate s inp :: s.snake ∧
      t.snakeLen = s.snakeLen + 1 ∧ t.score = s.score + 1 ∧
      t.gameDelay = max MIN_DELAY (s.gameDelay - DELAY_STEP) ∧
      placeFood t.snakeRow t.snakeCol t.snakeLen inp.draws = .ok (t.foodRow, t.foodCol) ∧
      t.direction = updateDirection s.direction inp.x inp.y ∧
      t.paused = false ∧ t.gameOver = false ∧ t.frameCount = wrapInt (s.frameCount + 1) := by
  rw [loop_eat hrun hdir hcol hate] at ht
  by_cases hlen : s.snakeLen < MAX_SNAKE_LEN
  · by_cases hdraw : ∃ d ∈ inp.draws, d ∉ candidate s inp :: s.snake
    · obtain ⟨u, hu, h1, h2, h3, h4, h5, h6, h7, h8, h9⟩ :=
        eat_ok { s with
          paused := false, direction := updateDirection s.direction inp.x inp.y }
          (candidate s inp).1 (candidate s inp).2 inp.draws hlen hdraw
      rw [hu] at ht
      cases ht
      exact ⟨hlen, h1, h2, h3, h4, h5, h6, h7, hrun.1 ▸ h8, h9⟩
    · push_neg at hdraw
      rw [eat_noReturn { s with
          paused := false, direction := updateDirection s.direction inp.x inp.y }
          (candidate s inp).1 (candidate s inp).2 inp.draws hlen hdraw] at ht
      cases ht
  · rw [eat_outOfBounds _ _ _ _ (by
      show MAX_SNAKE_LEN ≤ s.snakeLen
      omega)] at ht
    cases ht

/-- A running call that collides returns only in game-over mode with the game
reset and the food off the reset snake. -/
theorem loop_collide_ok {s : State} {inp : Input} {t : State} (hrun : runsTick s inp)
    (hdir : 0 ≤ s.direction ∧ s.direction < 4)
    (hcol : collides s.snakeRow s.snakeCol s.snakeLen (candidate s inp).1 (candidate s inp).2
      = true)
    (ht : loop s inp = .ok t) :
    t.snake = [(4, 2), (4, 1), (4, 0)] ∧ t.snakeLen = 3 ∧ t.direction = 1 ∧ t.score = 0 ∧
      t.gameDelay = INITIAL_DELAY ∧ t.gameOver = true ∧ t.paused = false ∧
      placeFood t.snakeRow t.snakeCol t.snakeLen inp.draws = .ok (t.foodRow, t.foodCol) ∧
      t.frameCount = s.frameCount := by
  cases hfood : placeFood (writeInitialCells s.snakeRow s.snakeCol).1
      (writeInitialCells s.snakeRow s.snakeCol).2 3 inp.draws with
  | error e =>
    rw [loop_collide_stop hrun hdir hcol hfood] at ht
    cases ht
  | ok food =>
    rw [loop_collide hrun hdir hcol hfood] at ht
    cases ht
    exact ⟨cells_writeInitialCells _ _, rfl, rfl, rfl, rfl, rfl, rfl, hfood, rfl⟩

/-- A running call that neither collides nor eats, from a state with a head and
a length within the arrays, returns with the snake moved. -/
theorem loop_move_ok {s : State} {inp : Input} {t : State} (hrun : runsTick s inp)
    (hdir : 0 ≤ s.direction ∧ s.direction < 4)
    (hlen : 1 ≤ s.snakeLen ∧ s.snakeLen ≤ MAX_SNAKE_LEN)
    (hcol : collides s.snakeRow s.snakeCol s.snakeLen (candidate s inp).1 (candidate s inp).2
      = false)
    (hate : candidate s inp ≠ (s.foodRow, s.foodCol))
    (ht : loop s inp = .ok t) :
    t.snake = candidate s inp :: s.snake.dropLast ∧ t.snakeLen = s.snakeLen ∧
      t.score = s.score ∧ t.gameDelay = s.gameDelay ∧
      t.foodRow = s.foodRow ∧ t.foodCol = s.foodCol ∧
      t.direction = updateDirection s.direction inp.x inp.y ∧
      t.paused = false ∧ t.gameOver = false ∧ t.frameCount = wrapInt (s.frameCount + 1) := by
  rw [loop_move hrun hdir hcol hate] at ht
  obtain ⟨u, hu, h1, h2, h3, h4, h5, h6, h7, h8, h9, h10⟩ :=
    move_ok { s with
      paused := false, direction := updateDirection s.direction inp.x inp.y }
      (candidate s inp).1 (candidate s inp).2 hlen.1 hlen.2
  rw [hu] at ht
  cases ht
  exact ⟨h1, h2, h3, h4, h5, h6, h7, h8, hrun.1 ▸ h9, h10⟩

/-- One returning call of `loop()` keeps the invariant. -/
theorem inv_loop {s : State} {inp : Input} {t : State} (hinv : Inv s)
    (ht : loop s inp = .ok t) : Inv t := by
  by_cases hrun : runsTick s inp
  · have hdir := hinv.2.2.2
    have hle : s.snakeLen ≤ MAX_SNAKE_LEN := by
      have := length_le_of_nodup_inGrid hinv.2.2.1 hinv.2.1
      rwa [State.snake, length_cells] at this
    cases hcol : collides s.snakeRow s.snakeCol s.snakeLen
        (candidate s inp).1 (candidate s inp).2 with
    | true =>
      obtain ⟨h1, h2, h3, -⟩ := loop_collide_ok hrun hdir hcol ht
      exact inv_of_initial_cells h2 h1 h3
    | false =>
      have hnot := candidate_not_mem_snake inp hinv hcol
      have hgrid := candidate_inGrid inp hinv
      by_cases hate : candidate s inp = (s.foodRow, s.foodCol)
      · obtain ⟨-, h1, h2, -, -, -, h3, -⟩ := loop_eat_ok hrun hdir hcol hate ht
        refine ⟨by omega, ?_, ?_, ?_⟩
        · rw [h1]
          intro p hp
          rcases List.mem_cons.mp hp with hp | hp
          · rw [hp]; exact hgrid
          · exact hinv.2.1 p hp
        · rw [h1]
          exact List.nodup_cons.mpr ⟨hnot, hinv.2.2.1⟩
        · rw [h3]
          exact updateDirection_range inp.x inp.y hdir
      · obtain ⟨h1, h2, -, -, -, -, h3, -⟩ :=
          loop_move_ok hrun hdir ⟨hinv.1, hle⟩ hcol hate ht
        refine ⟨h2 ▸ hinv.1, ?_, ?_, ?_⟩
        · rw [h1]
          intro p hp
          rcases List.mem_cons.mp hp with hp | hp
          · rw [hp]; exact hgrid
          · exact hinv.2.1 p (List.mem_of_mem_dropLast hp)
        · rw [h1]
          exact List.nodup_cons.mpr
            ⟨fun hmem => hnot (List.mem_of_mem_dropLast hmem),
              hinv.2.2.1.sublist (List.dropLast_sublist _)⟩
        · rw [h3]
          exact updateDirection_range inp.x inp.y hdir
  · obtain ⟨h1, h2, h3, h4, -⟩ := loop_not_running hrun ht
    unfold Inv State.snake
    rw [h1, h2, h3, h4]
    exact hinv

/-- In a state with the invariant a tick that does not collide finds room in the
arrays: the candidate head is one more distinct cell of the grid. -/
theorem room_of_not_collides {s : State} (inp : Input) (hinv : Inv s)
    (hcol : collides s.snakeRow s.snakeCol s.snakeLen (candidate s inp).1 (candidate s inp).2
      = false) : s.snakeLen < MAX_SNAKE_LEN := by
  have hnd : (candidate s inp :: s.snake).Nodup :=
    List.nodup_cons.mpr ⟨candidate_not_mem_snake inp hinv hcol, hinv.2.2.1⟩
  have hin : ∀ p ∈ candidate s inp :: s.snake, inGrid p := by
    intro p hp
    rcases List.mem_cons.mp hp with hp | hp
    · rw [hp]; exact candidate_inGrid inp hinv
    · exact hinv.2.1 p hp
  have := length_le_of_nodup_inGrid hnd hin
  rw [List.length_cons, State.snake, length_cells] at this
  omega

theorem placeFood_ne_outOfBounds (row col : Nat → Int) (len : Nat)
    (draws : List (Int × Int)) : placeFood row col len draws ≠ .error .outOfBounds := by
  rw [placeFood_eq_find]
  split <;> simp

/-- From a state with the invariant no call of `loop()` reads or writes outside an
array. -/
theorem loop_ne_outOfBounds {s : State} (inp : Input) (hinv : Inv s) :
    loop s inp ≠ .error .outOfBounds := by
  by_cases hrun : runsTick s inp
  · have hdir := hinv.2.2.2
    cases hcol : collides s.snakeRow s.snakeCol s.snakeLen
        (candidate s inp).1 (candidate s inp).2 with
    | true =>
      cases hfood : placeFood (writeInitialCells s.snakeRow s.snakeCol).1
          (writeInitialCells s.snakeRow s.snakeCol).2 3 inp.draws with
      | error e =>
        rw [loop_collide_stop hrun hdir hcol hfood]
        intro h
        cases h
        exact placeFood_ne_outOfBounds _ _ _ _ hfood
      | ok food =>
        rw [loop_collide hrun hdir hcol hfood]
        simp
    | false =>
      have hroom := room_of_not_collides inp hinv hcol
      by_cases hate : candidate s inp = (s.foodRow, s.foodCol)
      · rw [loop_eat hrun hdir hcol hate]
        by_cases hdraw : ∃ d ∈ inp.draws, d ∉ candidate s inp :: s.snake
        · obtain ⟨u, hu, -⟩ :=
            eat_ok { s with
              paused := false, direction := updateDirection s.direction inp.x inp.y }
              (candidate s inp).1 (candidate s inp).2 inp.draws hroom hdraw
          rw [hu]
          simp
        · push_neg at hdraw
          rw [eat_noReturn { s with
              paused := false, direction := updateDirection s.direction inp.x inp.y }
              (candidate s inp).1 (candidate s inp).2 inp.draws hroom hdraw]
          simp
      · rw [loop_move hrun hdir hcol hate]
        obtain ⟨u, hu, -⟩ :=
          move_ok { s with
            paused := false, direction := updateDirection s.direction inp.x inp.y }
            (candidate s inp).1 (candidate s inp).2 hinv.1 (by
              show s.snakeLen ≤ MAX_SNAKE_LEN
              omega)
        rw [hu]
        simp
  · unfold runsTick at hrun
    unfold loop
    cases hg : s.gameOver <;> cases hb : inp.button <;> cases hp : s.paused <;> simp_all

theorem inv_of_reachable {s : State} (h : Reachable s) : Inv s := by
  induction h with
  | start draws s hs => exact inv_setup hs
  | step s inp t _ ht ih => exact inv_loop ih ht

theorem setup_startState : setup [(4, 3)] = .ok startState := rfl

theorem reachable_startState : Reachable startState :=
  Reachable.start [(4, 3)] startState setup_startState

/-- C7. In every reachable state every snake cell at an index below `snakeLen` has
its row in `[0, 8)` and its column in `[0, 12)`. -/
theorem reachable_cells_in_grid (s : State) (h : Reachable s) (i : Nat)
    (hi : i < s.snakeLen) :
    0 ≤ s.snakeRow i ∧ s.snakeRow i < 8 ∧ 0 ≤ s.snakeCol i ∧ s.snakeCol i < 12 :=
  (inv_of_reachable h).2.1 (s.snakeRow i, s.snakeCol i) (mem_cells.mpr ⟨i, hi, rfl⟩)

/-- C7 on the state left by `setup()`: its tail cell, index 2, is inside the grid. -/
theorem reachable_cells_in_grid_witness :
    Reachable startState ∧ startState.snakeLen = 3 ∧
    (0 ≤ startState.snakeRow 2 ∧ startState.snakeRow 2 < 8 ∧
      0 ≤ startState.snakeCol 2 ∧ startState.snakeCol 2 < 12) :=
  ⟨reachable_startState, rfl,
    reachable_cells_in_grid startState reachable_startState 2 (by decide)⟩

/-- C8. In every reachable state the snake cells at two different indices below
`snakeLen` are different cells. -/
theorem reachable_cells_distinct (s : State) (h : Reachable s) (i j : Nat)
    (hi : i < s.snakeLen) (hj : j < s.snakeLen) (hij : i ≠ j) :
    ¬ (s.snakeRow i = s.snakeRow j ∧ s.snakeCol i = s.snakeCol j) := by
  have hnd : (cells s.snakeRow s.snakeCol s.snakeLen).Nodup := (inv_of_reachable h).2.2.1
  unfold cells at hnd
  rintro ⟨h1, h2⟩
  exact hij (List.inj_on_of_nodup_map hnd (List.mem_range.mpr hi) (List.mem_range.mpr hj)
    (Prod.ext h1 h2))

/-- C8 on the state left by `setup()`: head and tail are different cells. -/
theorem reachable_cells_distinct_witness :
    Reachable startState ∧
    ¬ (startState.snakeRow 0 = startState.snakeRow 2 ∧
      startState.snakeCol 0 = startState.snakeCol 2) :=
  ⟨reachable_startState,
    reachable_cells_distinct startState reachable_startState 0 2 (by decide) (by decide)
      (by decide)⟩

/-- C9. In every reachable state `snakeLen` is at most `MAX_SNAKE_LEN`; and a tick
that eats (no collision, candidate head on the food) starts with `snakeLen`
below `MAX_SNAKE_LEN`, so the case in which the length would have to stay at
`MAX_SNAKE_LEN` never arises, and the call, when it returns, leaves `snakeLen`
exactly one higher. -/
theorem reachable_length_bounded (s : State) (h : Reachable s) :
    s.snakeLen ≤ MAX_SNAKE_LEN ∧
    ∀ inp : Input, runsTick s inp →
      collides s.snakeRow s.snakeCol s.snakeLen (candidate s inp).1 (candidate s inp).2
        = false →
      candidate s inp = (s.foodRow, s.foodCol) →
      s.snakeLen < MAX_SNAKE_LEN ∧
      ∀ t : State, loop s inp = .ok t →
        t.snakeLen =
          (if s.snakeLen = MAX_SNAKE_LEN then MAX_SNAKE_LEN else s.snakeLen + 1) ∧
        t.snakeLen = s.snakeLen + 1 ∧ t.snakeLen ≤ MAX_SNAKE_LEN := by
  have hinv := inv_of_reachable h
  constructor
  · have := length_le_of_nodup_inGrid hinv.2.2.1 hinv.2.1
    rwa [State.snake, length_cells] at this
  · intro inp hrun hcol hate
    have hroom := room_of_not_collides inp hinv hcol
    refine ⟨hroom, ?_⟩
    intro t ht
    obtain ⟨-, -, h2, -⟩ := loop_eat_ok hrun hinv.2.2.2 hcol hate ht
    have hne : s.snakeLen ≠ MAX_SNAKE_LEN := by omega
    rw [if_neg hne]
    exact ⟨h2, h2, by omega⟩

/-- C9 on the state left by `setup()` with the food straight ahead: the tick eats
and the length goes from 3 to 4. -/
theorem reachable_length_bounded_witness :
    Reachable startState ∧ startState.snakeLen = 3 ∧
    ∃ t, loop startState (neutral [(0, 0)]) = .ok t ∧ t.snakeLen = 4 := by
  refine ⟨reachable_startState, rfl, ?_⟩
  have hrun : runsTick startState (neutral [(0, 0)]) := by decide
  have hcol : collides startState.snakeRow startState.snakeCol startState.snakeLen
      (candidate startState (neutral [(0, 0)])).1
      (candidate startState (neutral [(0, 0)])).2 = false := by decide
  have hate : candidate startState (neutral [(0, 0)]) =
      (startState.foodRow, startState.foodCol) := by decide
  obtain ⟨t, ht, -⟩ :=
    eat_ok { startState with
      paused := false,
      direction := updateDirection startState.direction (neutral [(0, 0)]).x
        (neutral [(0, 0)]).y }
      (candidate startState (neutral [(0, 0)])).1
      (candidate startState (neutral [(0, 0)])).2 [(0, 0)] (by decide)
      ⟨(0, 0), by decide, by decide⟩
  have hloop : loop startState (neutral [(0, 0)]) = .ok t :=
    (loop_eat hrun (by decide) hcol hate).trans ht
  have h := ((reachable_length_bounded startState reachable_startState).2
    (neutral [(0, 0)]) hrun hcol hate).2 t hloop
  exact ⟨t, hloop, h.2.1⟩

/-- C10. For every snake and every sequence of draws with `random(ROWS)` in
`[0, 8)` and `random(COLS)` in `[0, 12)`: whenever `placeFood` returns, the food
cell is inside the grid, `onSnake` is false on it, and it differs from every
snake cell at an index below `snakeLen`; and `placeFood` does return as soon as
one draw is off the snake. -/
theorem placeFood_off_snake (row col : Nat → Int) (len : Nat) (draws : List (Int × Int))
    (hrange : ∀ d ∈ draws, 0 ≤ d.1 ∧ d.1 < 8 ∧ 0 ≤ d.2 ∧ d.2 < 12) :
    (∀ food, placeFood row col len draws = .ok food →
      (0 ≤ food.1 ∧ food.1 < 8 ∧ 0 ≤ food.2 ∧ food.2 < 12) ∧
      onSnake row col len food.1 food.2 = false ∧
      ∀ i, i < len → ¬ (row i = food.1 ∧ col i = food.2)) ∧
    ((∃ d ∈ draws, onSnake row col len d.1 d.2 = false) →
      ∃ food, placeFood row col len draws = .ok food) := by
  constructor
  · intro food hfood
    obtain ⟨hmem, hoff⟩ := placeFood_ok hfood
    refine ⟨hrange food hmem, onSnake_false_iff.mpr hoff, ?_⟩
    rintro i hi ⟨h1, h2⟩
    exact hoff (mem_cells.mpr ⟨i, hi, Prod.ext h1 h2⟩)
  · rintro ⟨d, hd, hoff⟩
    exact placeFood_returns ⟨d, hd, onSnake_false_iff.mp hoff⟩

/-- C10 on the initial snake with the draws `(4,2)` (on the snake, rejected) and
`(1,7)`: the food lands on `(1,7)`. -/
theorem placeFood_off_snake_witness :
    placeFood (arr [4, 4, 4]) (arr [2, 1, 0]) 3 [(4, 2), (1, 7)] = .ok (1, 7) ∧
    onSnake (arr [4, 4, 4]) (arr [2, 1, 0]) 3 1 7 = false := by
  have h := (placeFood_off_snake (arr [4, 4, 4]) (arr [2, 1, 0]) 3 [(4, 2), (1, 7)]
    (by decide)).1 (1, 7) rfl
  exact ⟨rfl, h.2.1⟩

/-! ## The game-over screen -/

theorem reachable_run {s : State} (h : Reachable s) :
    ∀ (inps : List Input) {t : State}, run s inps = .ok t → Reachable t := by
  intro inps
  induction inps generalizing s with
  | nil =>
    intro t ht
    cases ht
    exact h
  | cons inp rest ih =>
    intro t ht
    unfold run at ht
    cases hl : loop s inp with
    | error e => rw [hl] at ht; cases ht
    | ok u =>
      rw [hl] at ht
      exact ih (Reachable.step s inp u h hl) ht

theorem run_squareTurn : run startState squareTurn = .ok beforeCollision := rfl

theorem loop_turnUp : loop beforeCollision turnUp = .ok afterCollision := rfl

/-- Drawing cells that are all inside the grid succeeds and sets exactly those
entries to 1. -/
theorem plotSnake_ok (l : List (Int × Int)) : ∀ (b : Bitmap), (∀ p ∈ l, inGrid p) →
    ∃ b1, plotSnake b l = .ok b1 ∧
      ∀ r c, b1 r c = if (r, c) ∈ l then 1 else b r c := by
  induction l with
  | nil =>
    intro b _
    exact ⟨b, rfl, by simp⟩
  | cons p rest ih =>
    intro b hin
    obtain ⟨pr, pc⟩ := p
    have hp : 0 ≤ pr ∧ pr < 8 ∧ 0 ≤ pc ∧ pc < 12 := hin (pr, pc) (List.mem_cons_self _ _)
    obtain ⟨b1, hb1, hspec⟩ :=
      ih (fun i j => if i = pr ∧ j = pc then 1 else b i j)
        (fun q hq => hin q (List.mem_cons_of_mem _ hq))
    refine ⟨b1, ?_, ?_⟩
    · simp only [plotSnake, plot, hp, and_self, if_true, hb1]
    · intro r c
      rw [hspec r c]
      by_cases hmem : (r, c) ∈ rest
      · simp [hmem]
      · by_cases heq : r = pr ∧ c = pc
        · simp [heq]
        · have hne : (r, c) ≠ (pr, pc) := fun h => heq ⟨congrArg Prod.fst h, congrArg Prod.snd h⟩
          simp [hmem, heq, hne]

/-- C4, what the sketch does. After `setup()` and three calls (eat, down, left) the
snake lies on `(5,2),(5,3),(4,3),(4,2)`; the fourth call (up) collides and ends
in game-over mode; the bitmap the game-over branch then draws shows the reset
snake `(4,2),(4,1),(4,0)` and the new food `(6,6)`, and none of the cells
`(5,2),(5,3),(4,3)` of the snake that collided. -/
theorem gameOver_bitmap_shows_reset_board :
    Reachable beforeCollision ∧
    beforeCollision.snake = [(5, 2), (5, 3), (4, 3), (4, 2)] ∧
    (beforeCollision.foodRow, beforeCollision.foodCol) = (0, 0) ∧
    loop beforeCollision turnUp = .ok afterCollision ∧
    afterCollision.gameOver = true ∧
    ∃ b, gameOverBitmap afterCollision = .ok b ∧
      picture b =
        [[0, 0, 0, 0, 0, 0, 0, 0, 0, 0, 0, 0],
         [0, 0, 0, 0, 0, 0, 0, 0, 0, 0, 0, 0],
         [0, 0, 0, 0, 0, 0, 0, 0, 0, 0, 0, 0],
         [0, 0, 0, 0, 0, 0, 0, 0, 0, 0, 0, 0],
         [1, 1, 1, 0, 0, 0, 0, 0, 0, 0, 0, 0],
         [0, 0, 0, 0, 0, 0, 0, 0, 0, 0, 0, 0],
         [0, 0, 0, 0, 0, 0, 1, 0, 0, 0, 0, 0],
         [0, 0, 0, 0, 0, 0, 0, 0, 0, 0, 0, 0]] := by
  refine ⟨reachable_run reachable_startState squareTurn run_squareTurn, by decide, by decide,
    loop_turnUp, by decide, ?_⟩
  exact ⟨_, rfl, by decide⟩

/-! ## The score display -/

theorem constrain_range (value : Int) :
    0 ≤ constrain value 0 9999 ∧ constrain value 0 9999 ≤ 9999 ∧
      constrain value 0 9999 = min (max value 0) 9999 := by
  unfold constrain
  split_ifs <;> omega

/-- The digits of `updateScoreDisplay` in mathematical terms: for the clamped
value `v` they are `v / 1000`, `v / 100 mod 10`, `v / 10 mod 10`, `v mod 10`. -/
theorem digits_eq (value : Int) :
    digits value =
      [constrain value 0 9999 / 1000, constrain value 0 9999 / 100 % 10,
        constrain value 0 9999 / 10 % 10, constrain value 0 9999 % 10] := by
  obtain ⟨h0, -, -⟩ := constrain_range value
  unfold digits
  dsimp only
  rw [Int.tdiv_eq_ediv h0 (by omega), Int.tdiv_eq_ediv h0 (by omega),
    Int.tdiv_eq_ediv h0 (by omega), Int.tmod_eq_emod h0 (by omega),
    Int.tmod_eq_emod (by omega) (by omega), Int.tmod_eq_emod (by omega) (by omega)]

/-- C11. For every value the four digits of `updateScoreDisplay`, thousands first,
are each in `[0, 9]` and make up the value clamped to `[0, 9999]`. -/
theorem digits_decompose (value : Int) :
    ∃ d0 d1 d2 d3 : Int, digits value = [d0, d1, d2, d3] ∧
      (0 ≤ d0 ∧ d0 ≤ 9) ∧ (0 ≤ d1 ∧ d1 ≤ 9) ∧ (0 ≤ d2 ∧ d2 ≤ 9) ∧ (0 ≤ d3 ∧ d3 ≤ 9) ∧
      1000 * d0 + 100 * d1 + 10 * d2 + d3 = min (max value 0) 9999 := by
  obtain ⟨h0, h1, h2⟩ := constrain_range value
  refine ⟨_, _, _, _, digits_eq value, ?_, ?_, ?_, ?_, ?_⟩ <;> omega

/-- C11 on the value of the specification: 1234 gives the digits 1, 2, 3, 4. -/
theorem digits_decompose_witness : digits 1234 = [1, 2, 3, 4] := by
  obtain ⟨d0, d1, d2, d3, h, b0, b1, b2, b3, hs⟩ := digits_decompose 1234
  have hv : min (max (1234 : Int) 0) 9999 = 1234 := by decide
  rw [hv] at hs
  have e0 : d0 = 1 := by omega
  have e1 : d1 = 2 := by omega
  have e2 : d2 = 3 := by omega
  have e3 : d3 = 4 := by omega
  rw [h, e0, e1, e2, e3]

/-- C12, what the table holds. Read in the order a, b, c, d, e, f, g, dp, the rows
of 0, 1, 2, 4, 6, 7 and 8 light the conventional glyph; the rows of 3, 5 and 9
light segment e where the conventional glyph has segment d. -/
theorem seg_rows_against_glyphs :
    (∀ d ∈ [0, 1, 2, 4, 6, 7, 8], litSegments (seg.getD d []) = conventionalGlyph d) ∧
    litSegments (seg.getD 3 []) = [.a, .b, .c, .e, .g] ∧
    conventionalGlyph 3 = [.a, .b, .c, .d, .g] ∧
    litSegments (seg.getD 5 []) = [.a, .c, .e, .f, .g] ∧
    conventionalGlyph 5 = [.a, .c, .d, .f, .g] ∧
    litSegments (seg.getD 9 []) = [.a, .b, .c, .e, .f, .g] ∧
    conventionalGlyph 9 = [.a, .b, .c, .d, .f, .g] := by
  decide

theorem scanDigit_eq_specPhase (i d : Nat) (hd : d ≤ 9) :
    scanDigit i (d : Int) = .ok (specPhase i d) := by
  interval_cases d <;> rfl

/-- In phase `i` the hold finds digit-select line `i` HIGH and the other three
LOW, whatever the levels were before. -/
theorem anodsAtHolds_specPhase (lv : Nat → Level) (i d : Nat) (rest : List PinEvent) :
    anodsAtHolds lv (specPhase i d ++ rest) =
      [if 0 = i then Level.HIGH else Level.LOW, if 1 = i then Level.HIGH else Level.LOW,
        if 2 = i then Level.HIGH else Level.LOW, if 3 = i then Level.HIGH else Level.LOW] ::
      anodsAtHolds (fun b => if b = i then Level.HIGH else if b = 3 then Level.LOW
        else if b = 2 then Level.LOW else if b = 1 then Level.LOW
        else if b = 0 then Level.LOW else lv b) rest := by
  simp [specPhase, anodsAtHolds, List.range_succ]

theorem anodsAtHolds_specPhase_last (lv : Nat → Level) (i d : Nat) :
    anodsAtHolds lv (specPhase i d) =
      [[if 0 = i then Level.HIGH else Level.LOW, if 1 = i then Level.HIGH else Level.LOW,
        if 2 = i then Level.HIGH else Level.LOW, if 3 = i then Level.HIGH else Level.LOW]] := by
  have h := anodsAtHolds_specPhase lv i d []
  rw [List.append_nil] at h
  rw [h]
  rfl

/-- The digits of `updateScoreDisplay` are the decimal digits of the clamped
value, thousands first. -/
theorem digits_shownValue (value : Int) :
    digits value =
      [((shownValue value / 1000 : Nat) : Int), ((shownValue value / 100 % 10 : Nat) : Int),
        ((shownValue value / 10 % 10 : Nat) : Int), ((shownValue value % 10 : Nat) : Int)] := by
  obtain ⟨h0, h1, h2⟩ := constrain_range value
  have hv : ((shownValue value : Nat) : Int) = constrain value 0 9999 := by
    unfold shownValue
    rw [Int.toNat_of_nonneg (by omega), h2]
  rw [digits_eq, ← hv]
  push_cast
  rfl

theorem shownValue_le (value : Int) : shownValue value ≤ 9999 := by
  unfold shownValue
  omega

/-- C16. For every value the trace of `updateScoreDisplay` is four phases, phase
`i = 0..3` showing the thousands, hundreds, tens and units digit of the value
clamped to `[0, 9999]`, each phase worded as in the specification (all
digit-select lines LOW, the eight segment lines from the table row of the digit,
digit-select line `i` HIGH, hold 600 microseconds); and at the four holds
exactly digit-select line 0, 1, 2, 3 in turn is HIGH, whatever the levels were
before the call. -/
theorem updateScoreDisplay_trace (value : Int) :
    updateScoreDisplay value =
      .ok (specPhase 0 (shownValue value / 1000) ++
        (specPhase 1 (shownValue value / 100 % 10) ++
          (specPhase 2 (shownValue value / 10 % 10) ++
            specPhase 3 (shownValue value % 10)))) ∧
    ∀ lv : Nat → Level,
      anodsAtHolds lv
          (specPhase 0 (shownValue value / 1000) ++
            (specPhase 1 (shownValue value / 100 % 10) ++
              (specPhase 2 (shownValue value / 10 % 10) ++
                specPhase 3 (shownValue value % 10)))) =
        [[Level.HIGH, Level.LOW, Level.LOW, Level.LOW],
          [Level.LOW, Level.HIGH, Level.LOW, Level.LOW],
          [Level.LOW, Level.LOW, Level.HIGH, Level.LOW],
          [Level.LOW, Level.LOW, Level.LOW, Level.HIGH]] := by
  have hle := shownValue_le value
  have h0 : shownValue value / 1000 ≤ 9 := by omega
  have h1 : shownValue value / 100 % 10 ≤ 9 := by omega
  have h2 : shownValue value / 10 % 10 ≤ 9 := by omega
  have h3 : shownValue value % 10 ≤ 9 := by omega
  constructor
  · unfold updateScoreDisplay
    rw [digits_shownValue]
    simp only [scanFrom, scanDigit_eq_specPhase _ _ h0, scanDigit_eq_specPhase _ _ h1,
      scanDigit_eq_specPhase _ _ h2, scanDigit_eq_specPhase _ _ h3, List.append_nil]
  · intro lv
    rw [anodsAtHolds_specPhase, anodsAtHolds_specPhase, anodsAtHolds_specPhase,
      anodsAtHolds_specPhase_last]
    rfl

/-- C16 on the value of the specification: 1234 is shown as the digits 1, 2, 3, 4
in the phases 0, 1, 2, 3; phase 0 lights segments b and c (the row of digit 1,
active LOW) with digit-select line 0; and a value above the range is shown
as 9999. -/
theorem updateScoreDisplay_trace_witness :
    updateScoreDisplay 1234 =
      .ok (specPhase 0 1 ++ (specPhase 1 2 ++ (specPhase 2 3 ++ specPhase 3 4))) ∧
    specPhase 0 1 =
      [PinEvent.digitalWrite (Pin.anod 0) Level.LOW, PinEvent.digitalWrite (Pin.anod 1) Level.LOW,
        PinEvent.digitalWrite (Pin.anod 2) Level.LOW, PinEvent.digitalWrite (Pin.anod 3) Level.LOW,
        PinEvent.digitalWrite (Pin.segment 0) Level.HIGH,
        PinEvent.digitalWrite (Pin.segment 1) Level.LOW,
        PinEvent.digitalWrite (Pin.segment 2) Level.LOW,
        PinEvent.digitalWrite (Pin.segment 3) Level.HIGH,
        PinEvent.digitalWrite (Pin.segment 4) Level.HIGH,
        PinEvent.digitalWrite (Pin.segment 5) Level.HIGH,
        PinEvent.digitalWrite (Pin.segment 6) Level.HIGH,
        PinEvent.digitalWrite (Pin.segment 7) Level.HIGH,
        PinEvent.digitalWrite (Pin.anod 0) Level.HIGH, PinEvent.delayMicroseconds 600] ∧
    updateScoreDisplay 12345 =
      .ok (specPhase 0 9 ++ (specPhase 1 9 ++ (specPhase 2 9 ++ specPhase 3 9))) :=
  ⟨(updateScoreDisplay_trace 1234).1, by decide, (updateScoreDisplay_trace 12345).1⟩

/-! ## More invariants of the reachable states -/

/-- The collision loop starts at index 1, `onSnake` at index 0; on the candidate
head they agree as soon as the snake cells are inside the grid, because a step
from the head cell never ends on the head cell. -/
theorem collides_eq_onSnake_of_inGrid (s : State) (inp : Input)
    (hdir : 0 ≤ s.direction ∧ s.direction < 4)
    (hgrid : ∀ i, i < s.snakeLen → inGrid (s.snakeRow i, s.snakeCol i)) :
    collides s.snakeRow s.snakeCol s.snakeLen (candidate s inp).1 (candidate s inp).2 =
      onSnake s.snakeRow s.snakeCol s.snakeLen (candidate s inp).1 (candidate s inp).2 := by
  rw [Bool.eq_iff_iff, collides_iff, onSnake_iff, mem_cells]
  constructor
  · rintro ⟨i, _, hi, h1, h2⟩
    exact ⟨i, hi, by rw [h1, h2]⟩
  · rintro ⟨i, hi, h⟩
    have h1 := congrArg Prod.fst h
    have h2 := congrArg Prod.snd h
    dsimp only at h1 h2
    refine ⟨i, ?_, hi, h1, h2⟩
    by_contra h0
    have hi0 : i = 0 := by omega
    subst hi0
    exact nextHead_ne (hgrid 0 hi) (updateDirection_range inp.x inp.y hdir) h.symm

/-- A call that does not reach the tick is either the game-over branch (button
pressed, `gameOver` cleared) or the paused branch (frame counter advanced). -/
theorem loop_not_running_cases {s : State} {inp : Input} (h : ¬ runsTick s inp) {t : State}
    (ht : loop s inp = .ok t) :
    (s.gameOver = true ∧ inp.button = true ∧ t.gameOver = false ∧ t.paused = s.paused ∧
        t.frameCount = s.frameCount) ∨
    (s.gameOver = false ∧ t.gameOver = false ∧ t.paused = true ∧
        s.paused = !inp.button ∧ t.frameCount = wrapInt (s.frameCount + 1)) := by
  unfold runsTick at h
  unfold loop at ht
  cases hg : s.gameOver <;> cases hb : inp.button <;> cases hp : s.paused <;>
    simp_all <;> subst ht <;> simp

theorem setup_fields {draws : List (Int × Int)} {s : State} (h : setup draws = .ok s) :
    s.snakeLen = 3 ∧ s.snake = [(4, 2), (4, 1), (4, 0)] ∧ s.direction = 1 ∧
      s.paused = false ∧ s.gameOver = false ∧ s.score = 0 ∧ s.frameCount = 0 ∧
      s.gameDelay = INITIAL_DELAY ∧
      placeFood s.snakeRow s.snakeCol s.snakeLen draws = .ok (s.foodRow, s.foodCol) := by
  unfold setup at h
  dsimp only at h
  split at h
  · cases h
  · rename_i food hfood
    cases h
    exact ⟨rfl, cells_writeInitialCells _ _, rfl, rfl, rfl, rfl, rfl, rfl, hfood⟩

/-- The food stays off the snake over one returning call. -/
theorem food_off_loop {s : State} {inp : Input} {t : State} (hinv : Inv s)
    (hoff : (s.foodRow, s.foodCol) ∉ s.snake) (ht : loop s inp = .ok t) :
    (t.foodRow, t.foodCol) ∉ t.snake := by
  by_cases hrun : runsTick s inp
  · have hdir := hinv.2.2.2
    cases hcol : collides s.snakeRow s.snakeCol s.snakeLen
        (candidate s inp).1 (candidate s inp).2 with
    | true =>
      obtain ⟨-, -, -, -, -, -, -, hfood, -⟩ := loop_collide_ok hrun hdir hcol ht
      exact (placeFood_ok hfood).2
    | false =>
      by_cases hate : candidate s inp = (s.foodRow, s.foodCol)
      · obtain ⟨-, -, -, -, -, hfood, -⟩ := loop_eat_ok hrun hdir hcol hate ht
        exact (placeFood_ok hfood).2
      · have hle : s.snakeLen ≤ MAX_SNAKE_LEN := by
          have := room_of_not_collides inp hinv hcol
          omega
        obtain ⟨h1, -, -, -, h5, h6, -⟩ :=
          loop_move_ok hrun hdir ⟨hinv.1, hle⟩ hcol hate ht
        rw [h1, h5, h6]
        intro hmem
        rcases List.mem_cons.mp hmem with hm | hm
        · exact hate hm.symm
        · exact hoff (List.mem_of_mem_dropLast hm)
  · obtain ⟨h1, h2, h3, -, -, -, h7, h8⟩ := loop_not_running hrun ht
    unfold State.snake
    rw [h1, h2, h3, h7, h8]
    exact hoff

theorem food_off_of_reachable {s : State} (h : Reachable s) :
    (s.foodRow, s.foodCol) ∉ s.snake := by
  induction h with
  | start draws s hs => exact (placeFood_ok (setup_fields hs).2.2.2.2.2.2.2.2).2
  | step s inp t hr ht ih => exact food_off_loop (inv_of_reachable hr) ih ht

/-- The flags after one returning call from a state with the invariant: never
both set. -/
theorem flags_loop {s : State} {inp : Input} {t : State} (hinv : Inv s)
    (ht : loop s inp = .ok t) : ¬ (t.gameOver = true ∧ t.paused = true) := by
  by_cases hrun : runsTick s inp
  · have hdir := hinv.2.2.2
    have hp : t.paused = false := by
      cases hcol : collides s.snakeRow s.snakeCol s.snakeLen
          (candidate s inp).1 (candidate s inp).2 with
      | true => exact (loop_collide_ok hrun hdir hcol ht).2.2.2.2.2.2.1
      | false =>
        by_cases hate : candidate s inp = (s.foodRow, s.foodCol)
        · exact (loop_eat_ok hrun hdir hcol hate ht).2.2.2.2.2.2.2.1
        · have hle : s.snakeLen ≤ MAX_SNAKE_LEN := by
            have := room_of_not_collides inp hinv hcol
            omega
          exact (loop_move_ok hrun hdir ⟨hinv.1, hle⟩ hcol hate ht).2.2.2.2.2.2.2.1
    rw [hp]
    simp
  · rcases loop_not_running_cases hrun ht with ⟨-, -, h, -⟩ | ⟨-, h, -⟩ <;> rw [h] <;> simp

theorem flags_of_reachable {s : State} (h : Reachable s) :
    ¬ (s.gameOver = true ∧ s.paused = true) := by
  induction h with
  | start draws s hs =>
    rw [(setup_fields hs).2.2.2.1]
    simp
  | step s inp t hr ht _ => exact flags_loop (inv_of_reachable hr) ht

theorem frameCount_loop {s : State} {inp : Input} {t : State} (hinv : Inv s)
    (ht : loop s inp = .ok t) :
    t.frameCount = s.frameCount ∨ t.frameCount = wrapInt (s.frameCount + 1) := by
  by_cases hrun : runsTick s inp
  · have hdir := hinv.2.2.2
    cases hcol : collides s.snakeRow s.snakeCol s.snakeLen
        (candidate s inp).1 (candidate s inp).2 with
    | true => exact Or.inl (loop_collide_ok hrun hdir hcol ht).2.2.2.2.2.2.2.2
    | false =>
      by_cases hate : candidate s inp = (s.foodRow, s.foodCol)
      · exact Or.inr (loop_eat_ok hrun hdir hcol hate ht).2.2.2.2.2.2.2.2.2
      · have hle : s.snakeLen ≤ MAX_SNAKE_LEN := by
          have := room_of_not_collides inp hinv hcol
          omega
        exact Or.inr (loop_move_ok hrun hdir ⟨hinv.1, hle⟩ hcol hate ht).2.2.2.2.2.2.2.2.2
  · rcases loop_not_running_cases hrun ht with ⟨-, -, -, -, h⟩ | ⟨-, -, -, -, h⟩
    · exact Or.inl h
    · exact Or.inr h

theorem wrapInt_range (x : Int) : INT_MIN ≤ wrapInt x ∧ wrapInt x ≤ INT_MAX := by
  unfold wrapInt INT_MIN INT_MAX
  omega

/-- Below `INT_MAX` the increment is the plain one; at `INT_MAX` it gives
`INT_MIN`. -/
theorem wrapInt_succ {x : Int} (h : INT_MIN ≤ x ∧ x ≤ INT_MAX) :
    wrapInt (x + 1) = if x = INT_MAX then INT_MIN else x + 1 := by
  unfold INT_MIN INT_MAX at *
  unfold wrapInt
  split_ifs <;> omega

/-- In every reachable state the frame counter is a 32-bit value. -/
theorem frameCount_range_of_reachable {s : State} (h : Reachable s) :
    INT_MIN ≤ s.frameCount ∧ s.frameCount ≤ INT_MAX := by
  induction h with
  | start draws s hs =>
    rw [(setup_fields hs).2.2.2.2.2.2.1]
    decide
  | step s inp t hr ht ih =>
    rcases frameCount_loop (inv_of_reachable hr) ht with h | h
    · rw [h]; exact ih
    · rw [h]; exact wrapInt_range _

theorem reachable_of_reachableAfter {k : Nat} {s : State} (h : ReachableAfter k s) :
    Reachable s := by
  induction h with
  | start draws s hs => exact Reachable.start draws s hs
  | step k s inp t _ ht ih => exact Reachable.step s inp t ih ht

theorem reachableAfter_of_reachable {s : State} (h : Reachable s) :
    ∃ k, ReachableAfter k s := by
  induction h with
  | start draws s hs => exact ⟨0, ReachableAfter.start draws s hs⟩
  | step s inp t _ ht ih =>
    obtain ⟨k, hk⟩ := ih
    exact ⟨_, ReachableAfter.step k s inp t hk ht⟩

/-- The delay and the score after one returning call, in terms of the count of
foods eaten since the last reset. -/
theorem delay_loop {k : Nat} {s : State} {inp : Input} {t : State} (hinv : Inv s)
    (hd : s.gameDelay = max 60 (220 - 15 * (k : Int))) (hs : s.score = (k : Int))
    (ht : loop s inp = .ok t) :
    t.gameDelay = max 60 (220 - 15 * ((eatenAfter k s inp : Nat) : Int)) ∧
      t.score = ((eatenAfter k s inp : Nat) : Int) := by
  unfold eatenAfter collision
  by_cases hrun : runsTick s inp
  · have hdir := hinv.2.2.2
    rw [if_pos hrun]
    cases hcol : collides s.snakeRow s.snakeCol s.snakeLen
        (candidate s inp).1 (candidate s inp).2 with
    | true =>
      obtain ⟨-, -, -, h4, h5, -⟩ := loop_collide_ok hrun hdir hcol ht
      rw [h4, h5]
      simp [INITIAL_DELAY]
    | false =>
      by_cases hate : candidate s inp = (s.foodRow, s.foodCol)
      · obtain ⟨-, -, -, h4, h5, -⟩ := loop_eat_ok hrun hdir hcol hate ht
        rw [h4, h5, hd, hs]
        simp only [Bool.false_eq_true, if_false, if_pos hate, MIN_DELAY, DELAY_STEP]
        push_cast
        omega
      · have hle : s.snakeLen ≤ MAX_SNAKE_LEN := by
          have := room_of_not_collides inp hinv hcol
          omega
        obtain ⟨-, -, h3, h4, -⟩ := loop_move_ok hrun hdir ⟨hinv.1, hle⟩ hcol hate ht
        rw [h3, h4, hd, hs]
        simp [hate]
  · obtain ⟨-, -, -, -, h5, h6, -⟩ := loop_not_running hrun ht
    rw [if_neg hrun, h5, h6]
    exact ⟨hd, hs⟩

theorem delay_of_reachableAfter {k : Nat} {s : State} (h : ReachableAfter k s) :
    s.gameDelay = max 60 (220 - 15 * (k : Int)) ∧ s.score = (k : Int) := by
  induction h with
  | start draws s hs =>
    obtain ⟨-, -, -, -, -, h6, -, h8, -⟩ := setup_fields hs
    rw [h6, h8]
    simp [INITIAL_DELAY]
  | step k s inp t hr ht ih =>
    exact delay_loop (inv_of_reachable (reachable_of_reachableAfter hr)) ih.1 ih.2 ht

/-! ## The claims on delay, modes, collision and food -/

/-- C13. In every reachable state the delay is between `MIN_DELAY` (60) and
`INITIAL_DELAY` (220); a tick without collision never raises it; and after `k`
foods eaten since the last reset it is `max(60, 220 - 15 k)`. -/
theorem reachable_delay_bounds (s : State) (h : Reachable s) :
    (MIN_DELAY ≤ s.gameDelay ∧ s.gameDelay ≤ INITIAL_DELAY) ∧
    (∀ (inp : Input) (t : State), runsTick s inp → collision s inp = false →
      loop s inp = .ok t → t.gameDelay ≤ s.gameDelay) ∧
    (∀ k : Nat, ReachableAfter k s → s.gameDelay = max 60 (220 - 15 * (k : Int))) := by
  obtain ⟨k, hk⟩ := reachableAfter_of_reachable h
  have hd := (delay_of_reachableAfter hk).1
  have hinv := inv_of_reachable h
  have hb : MIN_DELAY ≤ s.gameDelay ∧ s.gameDelay ≤ INITIAL_DELAY := by
    unfold MIN_DELAY INITIAL_DELAY
    omega
  refine ⟨hb, ?_, fun k hk => (delay_of_reachableAfter hk).1⟩
  intro inp t hrun hcol ht
  unfold collision at hcol
  by_cases hate : candidate s inp = (s.foodRow, s.foodCol)
  · obtain ⟨-, -, -, -, h5, -⟩ := loop_eat_ok hrun hinv.2.2.2 hcol hate ht
    rw [h5]
    unfold MIN_DELAY INITIAL_DELAY at hb
    unfold MIN_DELAY DELAY_STEP
    omega
  · have hle : s.snakeLen ≤ MAX_SNAKE_LEN := by
      have := room_of_not_collides inp hinv hcol
      omega
    obtain ⟨-, -, -, h4, -⟩ := loop_move_ok hrun hinv.2.2.2 ⟨hinv.1, hle⟩ hcol hate ht
    rw [h4]

/-- C13 on the first call after `setup()`: the snake eats, and the delay goes from
220 to 205. -/
theorem reachable_delay_bounds_witness :
    Reachable startState ∧ startState.gameDelay = 220 ∧
    loop startState (neutral [(0, 0)]) = .ok afterFirstMeal ∧
    afterFirstMeal.gameDelay = 205 ∧ afterFirstMeal.gameDelay ≤ startState.gameDelay := by
  have h := (reachable_delay_bounds startState reachable_startState).2.1
    (neutral [(0, 0)]) afterFirstMeal (by decide) (by decide) rfl
  exact ⟨reachable_startState, rfl, rfl, by decide, h⟩

theorem mode_cases (s : State) :
    (mode s = Mode.GAME_OVER ↔ s.gameOver = true) ∧
    (mode s = Mode.PAUSED ↔ s.gameOver = false ∧ s.paused = true) ∧
    (mode s = Mode.RUNNING ↔ s.gameOver = false ∧ s.paused = false) := by
  unfold mode
  cases s.gameOver <;> cases s.paused <;> simp

/-- The mode after a returning call that reaches the tick. -/
theorem mode_after_tick {s : State} {inp : Input} {t : State} (hinv : Inv s)
    (hrun : runsTick s inp) (ht : loop s inp = .ok t) :
    mode t = if collision s inp then Mode.GAME_OVER else Mode.RUNNING := by
  have hdir := hinv.2.2.2
  unfold collision
  cases hcol : collides s.snakeRow s.snakeCol s.snakeLen
      (candidate s inp).1 (candidate s inp).2 with
  | true =>
    obtain ⟨-, -, -, -, -, h6, -⟩ := loop_collide_ok hrun hdir hcol ht
    simp [mode, h6]
  | false =>
    by_cases hate : candidate s inp = (s.foodRow, s.foodCol)
    · obtain ⟨-, -, -, -, -, -, -, h8, h9, -⟩ := loop_eat_ok hrun hdir hcol hate ht
      simp [mode, h8, h9]
    · have hle : s.snakeLen ≤ MAX_SNAKE_LEN := by
        have := room_of_not_collides inp hinv hcol
        omega
      obtain ⟨-, -, -, -, -, -, -, h8, h9, -⟩ :=
        loop_move_ok hrun hdir ⟨hinv.1, hle⟩ hcol hate ht
      simp [mode, h8, h9]

/-- C14 (amended). The startup mode is RUNNING, and over one returning call of
`loop()` from a reachable state: GAME_OVER goes to RUNNING, with the button
pressed; PAUSED stays PAUSED without a button press; PAUSED with the button
pressed runs the tick in the same call and goes to RUNNING, or to GAME_OVER when
that tick collides; RUNNING with the button pressed goes to PAUSED; RUNNING
without a button press stays RUNNING, or goes to GAME_OVER when the tick
collides. In particular no call takes GAME_OVER to PAUSED. -/
theorem mode_transitions (s : State) (h : Reachable s) (inp : Input) (t : State)
    (ht : loop s inp = .ok t) :
    (∀ (draws : List (Int × Int)) (s0 : State), setup draws = .ok s0 →
      mode s0 = Mode.RUNNING) ∧
    (mode s = Mode.GAME_OVER → inp.button = true ∧ mode t = Mode.RUNNING) ∧
    (mode s = Mode.PAUSED → inp.button = false → mode t = Mode.PAUSED) ∧
    (mode s = Mode.PAUSED → inp.button = true →
      mode t = if collision s inp then Mode.GAME_OVER else Mode.RUNNING) ∧
    (mode s = Mode.RUNNING → inp.button = true → mode t = Mode.PAUSED) ∧
    (mode s = Mode.RUNNING → inp.button = false →
      mode t = if collision s inp then Mode.GAME_OVER else Mode.RUNNING) := by
  have hinv := inv_of_reachable h
  have hfl := flags_of_reachable h
  obtain ⟨m1, m2, m3⟩ := mode_cases s
  obtain ⟨n1, n2, n3⟩ := mode_cases t
  refine ⟨?_, ?_, ?_, ?_, ?_, ?_⟩
  · intro draws s0 hs0
    obtain ⟨-, -, -, h4, h5, -⟩ := setup_fields hs0
    exact (mode_cases s0).2.2.2 ⟨h5, h4⟩
  · intro hm
    have hg := m1.1 hm
    have hnr : ¬ runsTick s inp := fun hr => by
      have := hr.1
      rw [hg] at this
      cases this
    rcases loop_not_running_cases hnr ht with ⟨-, hb, h3, h4, -⟩ | ⟨hg2, -⟩
    · refine ⟨hb, n3.2 ⟨h3, ?_⟩⟩
      rw [h4]
      cases hp : s.paused
      · rfl
      · exact absurd ⟨hg, hp⟩ hfl
    · rw [hg] at hg2
      cases hg2
  · intro hm hb
    obtain ⟨hg, hp⟩ := m2.1 hm
    have hnr : ¬ runsTick s inp := fun hr => by
      have := hr.2
      rw [hb, hp] at this
      cases this
    rcases loop_not_running_cases hnr ht with ⟨hg2, -⟩ | ⟨-, h2, h3, -⟩
    · rw [hg] at hg2
      cases hg2
    · exact n2.2 ⟨h2, h3⟩
  · intro hm hb
    obtain ⟨hg, hp⟩ := m2.1 hm
    have hr : runsTick s inp := ⟨hg, by rw [hb, hp]; rfl⟩
    exact mode_after_tick hinv hr ht
  · intro hm hb
    obtain ⟨hg, hp⟩ := m3.1 hm
    have hnr : ¬ runsTick s inp := fun hr => by
      have := hr.2
      rw [hb, hp] at this
      cases this
    rcases loop_not_running_cases hnr ht with ⟨hg2, -⟩ | ⟨-, h2, h3, -⟩
    · rw [hg] at hg2
      cases hg2
    · exact n2.2 ⟨h2, h3⟩
  · intro hm hb
    obtain ⟨hg, hp⟩ := m3.1 hm
    have hr : runsTick s inp := ⟨hg, by rw [hb, hp]; rfl⟩
    exact mode_after_tick hinv hr ht

theorem reachable_beforeCollision : Reachable beforeCollision :=
  reachable_run reachable_startState squareTurn run_squareTurn

theorem loop_pressButton : loop beforeCollision pressButton = .ok pausedBeforeCollision := rfl

theorem loop_pressButtonUp : loop pausedBeforeCollision pressButtonUp = .ok afterResume := rfl

theorem reachable_pausedBeforeCollision : Reachable pausedBeforeCollision :=
  Reachable.step beforeCollision pressButton pausedBeforeCollision reachable_beforeCollision
    loop_pressButton

/-- C14 on a reachable running state: the button pauses the game, and pressed
again with the joystick up it resumes into a tick that collides. -/
theorem mode_transitions_witness :
    Reachable beforeCollision ∧ mode beforeCollision = Mode.RUNNING ∧
    loop beforeCollision pressButton = .ok pausedBeforeCollision ∧
    mode pausedBeforeCollision = Mode.PAUSED := by
  have h := (mode_transitions beforeCollision reachable_beforeCollision pressButton
    pausedBeforeCollision loop_pressButton).2.2.2.2.1 (by decide) rfl
  exact ⟨reachable_beforeCollision, by decide, loop_pressButton, h⟩

/-- C14 as stated fails: `pausedBeforeCollision` is a reachable state in PAUSED
mode, and one call of `loop()` with the button pressed and the joystick up
leaves GAME_OVER mode: the call unpauses and runs the tick, which collides. -/
theorem paused_to_game_over_in_one_call :
    Reachable pausedBeforeCollision ∧ mode pausedBeforeCollision = Mode.PAUSED ∧
    loop pausedBeforeCollision pressButtonUp = .ok afterResume ∧
    mode afterResume = Mode.GAME_OVER :=
  ⟨reachable_pausedBeforeCollision, by decide, loop_pressButtonUp, by decide⟩

/-- C15. In a state whose snake cells are inside the grid, the collision flag of
the tick is true exactly when the candidate head is one of the cells at indices
`[0, snakeLen)`, that is exactly when `onSnake` holds on it; in particular a
candidate head on the cell of the tail is a collision. -/
theorem collision_flag_iff_onSnake (s : State) (inp : Input)
    (hdir : 0 ≤ s.direction ∧ s.direction < 4)
    (hgrid : ∀ p ∈ s.snake, inGrid p) :
    (collision s inp = true ↔
      ∃ i, i < s.snakeLen ∧ s.snakeRow i = (candidate s inp).1 ∧
        s.snakeCol i = (candidate s inp).2) ∧
    collision s inp =
      onSnake s.snakeRow s.snakeCol s.snakeLen (candidate s inp).1 (candidate s inp).2 ∧
    (1 ≤ s.snakeLen →
      candidate s inp = (s.snakeRow (s.snakeLen - 1), s.snakeCol (s.snakeLen - 1)) →
      collision s inp = true) := by
  have heq : collision s inp =
      onSnake s.snakeRow s.snakeCol s.snakeLen (candidate s inp).1 (candidate s inp).2 :=
    collides_eq_onSnake_of_inGrid s inp hdir
      (fun i hi => hgrid _ (mem_cells.mpr ⟨i, hi, rfl⟩))
  have hiff : collision s inp = true ↔
      ∃ i, i < s.snakeLen ∧ s.snakeRow i = (candidate s inp).1 ∧
        s.snakeCol i = (candidate s inp).2 := by
    rw [heq, onSnake_iff, mem_cells]
    constructor
    · rintro ⟨i, hi, h⟩
      exact ⟨i, hi, congrArg Prod.fst h, congrArg Prod.snd h⟩
    · rintro ⟨i, hi, h1, h2⟩
      exact ⟨i, hi, Prod.ext h1 h2⟩
  refine ⟨hiff, heq, ?_⟩
  intro hlen htail
  rw [hiff]
  exact ⟨s.snakeLen - 1, by omega, (congrArg Prod.fst htail).symm,
    (congrArg Prod.snd htail).symm⟩

/-- C15 on the reachable state `beforeCollision`, snake `(5,2),(5,3),(4,3),(4,2)`:
pushed up, the candidate head is `(4,2)`, the cell of the tail, and the flag
is set. -/
theorem collision_flag_iff_onSnake_witness :
    beforeCollision.snake = [(5, 2), (5, 3), (4, 3), (4, 2)] ∧
    candidate beforeCollision turnUp = (4, 2) ∧
    collision beforeCollision turnUp = true := by
  have h := (collision_flag_iff_onSnake beforeCollision turnUp (by decide) (by decide)).2.2
    (by decide) (by decide)
  exact ⟨by decide, by decide, h⟩

/-- The visibility test on a frame counter that is not negative: on for two
frames, off for two. -/
theorem foodVisible_iff {n : Int} (hn : 0 ≤ n) : foodVisible n = true ↔ n % 4 < 2 := by
  unfold foodVisible
  rw [Int.tdiv_eq_ediv hn (by omega), Int.tmod_eq_emod (by omega) (by omega),
    decide_eq_true_eq]
  omega

theorem plot_ok {b : Bitmap} {r c : Int} (h : inGrid (r, c)) :
    plot b r c = .ok (fun i j => if i = r ∧ j = c then 1 else b i j) := by
  have h2 : 0 ≤ r ∧ r < 8 ∧ 0 ≤ c ∧ c < 12 := h
  unfold plot
  rw [if_pos h2]

/-- The frame of a state whose snake is inside the grid, and whose food is too:
1 on the snake and, when the counter says so, on the food; 0 elsewhere. -/
theorem tickBitmap_ok {t : State} (hsnake : ∀ p ∈ t.snake, inGrid p)
    (hfood : inGrid (t.foodRow, t.foodCol)) :
    ∃ b, tickBitmap t = .ok b ∧
      ∀ r c, b r c =
        if (r, c) ∈ t.snake ∨ ((r, c) = (t.foodRow, t.foodCol) ∧ foodVisible t.frameCount = true)
        then 1 else 0 := by
  obtain ⟨b1, hb1, hspec⟩ := plotSnake_ok t.snake blankBitmap hsnake
  unfold tickBitmap
  rw [hb1]
  cases hv : foodVisible t.frameCount with
  | true =>
    refine ⟨fun i j => if i = t.foodRow ∧ j = t.foodCol then 1 else b1 i j, ?_, ?_⟩
    · simp only [if_true, plot_ok hfood]
    intro r c
    dsimp only
    rw [hspec r c]
    by_cases hm : (r, c) ∈ t.snake
    · simp [hm]
    · by_cases he : r = t.foodRow ∧ c = t.foodCol
      · simp [he]
      · have hne : ¬ ((r, c) = (t.foodRow, t.foodCol)) :=
          fun h => he ⟨congrArg Prod.fst h, congrArg Prod.snd h⟩
        simp [hm, he, hne, blankBitmap]
  | false =>
    refine ⟨b1, by simp, ?_⟩
    intro r c
    rw [hspec r c]
    by_cases hm : (r, c) ∈ t.snake <;> simp [hm, blankBitmap]

/-- The paused branch advances the frame counter and nothing else. -/
theorem loop_pausedAt (fc : Int) :
    loop (pausedAt fc) (neutral []) = .ok (pausedAt (wrapInt (fc + 1))) := rfl

theorem pausedAt_start : pausedAt 4 = pausedBeforeCollision := rfl

/-- Left paused, the game reaches every value of the frame counter. -/
theorem reachable_pausedAt (n : Nat) : Reachable (pausedAt (wrapInt (4 + (n : Int)))) := by
  induction n with
  | zero =>
    have h : wrapInt (4 + ((0 : Nat) : Int)) = 4 := by decide
    rw [h, pausedAt_start]
    exact reachable_pausedBeforeCollision
  | succ k ih =>
    have h : wrapInt (4 + ((k + 1 : Nat) : Int)) = wrapInt (wrapInt (4 + (k : Int)) + 1) := by
      unfold wrapInt
      push_cast
      omega
    rw [h]
    exact Reachable.step _ (neutral []) _ ih (loop_pausedAt _)

theorem reachable_pausedAt_INT_MAX : Reachable (pausedAt INT_MAX) := by
  have h := reachable_pausedAt 2147483643
  have e : wrapInt (4 + ((2147483643 : Nat) : Int)) = INT_MAX := by decide
  rw [e] at h
  exact h

theorem loop_afterWrap : loop (pausedAt INT_MAX) pressButton = .ok afterWrap := rfl

/-- C17. After a tick without collision from a reachable state, with the food cell
inside the grid: the frame counter is the incremented one (one higher, or
`INT_MIN` after `INT_MAX`, the 32-bit wrap); the bitmap drawn has 1 exactly on
the cells of the snake after the move and, when `(frameCount / 2) % 2 == 0`
holds of the new counter with the division and remainder of C, on the food
cell, and 0 elsewhere; and for counters that are not negative that test is the
one of floor arithmetic, it holds exactly when the counter is 0 or 1 modulo 4
(two frames on, two off), and it has period 4. -/
theorem tick_bitmap (s : State) (h : Reachable s) (inp : Input) (t : State)
    (hrun : runsTick s inp) (hcol : collision s inp = false) (ht : loop s inp = .ok t)
    (hfood : inGrid (t.foodRow, t.foodCol)) :
    t.frameCount = (if s.frameCount = INT_MAX then INT_MIN else s.frameCount + 1) ∧
    t.snake = candidate s inp ::
      (if candidate s inp = (s.foodRow, s.foodCol) then s.snake else s.snake.dropLast) ∧
    (∃ b, tickBitmap t = .ok b ∧
      ∀ r c, b r c =
        if (r, c) ∈ t.snake ∨
          ((r, c) = (t.foodRow, t.foodCol) ∧ (t.frameCount.tdiv 2).tmod 2 = 0)
        then 1 else 0) ∧
    (∀ n : Int, 0 ≤ n →
      ((n.tdiv 2).tmod 2 = 0 ↔ (n / 2) % 2 = 0) ∧
      ((n.tdiv 2).tmod 2 = 0 ↔ n % 4 < 2) ∧
      (((n + 4).tdiv 2).tmod 2 = 0 ↔ (n.tdiv 2).tmod 2 = 0)) := by
  have hinv := inv_of_reachable h
  have hinvt := inv_of_reachable (Reachable.step s inp t h ht)
  have hrange := frameCount_range_of_reachable h
  have hvis : ∀ n : Int, (foodVisible n = true ↔ (n.tdiv 2).tmod 2 = 0) := by
    intro n
    unfold foodVisible
    rw [decide_eq_true_eq]
  have hper : ∀ n : Int, 0 ≤ n →
      ((n.tdiv 2).tmod 2 = 0 ↔ (n / 2) % 2 = 0) ∧
      ((n.tdiv 2).tmod 2 = 0 ↔ n % 4 < 2) ∧
      (((n + 4).tdiv 2).tmod 2 = 0 ↔ (n.tdiv 2).tmod 2 = 0) := by
    intro n hn
    rw [← hvis n, ← hvis (n + 4), foodVisible_iff hn, foodVisible_iff (by omega)]
    omega
  have hfc_snake : t.frameCount = wrapInt (s.frameCount + 1) ∧
      t.snake = candidate s inp ::
        (if candidate s inp = (s.foodRow, s.foodCol) then s.snake else s.snake.dropLast) := by
    unfold collision at hcol
    by_cases hate : candidate s inp = (s.foodRow, s.foodCol)
    · obtain ⟨-, h1, -, -, -, -, -, -, -, h9⟩ := loop_eat_ok hrun hinv.2.2.2 hcol hate ht
      rw [if_pos hate]
      exact ⟨h9, h1⟩
    · have hle : s.snakeLen ≤ MAX_SNAKE_LEN := by
        have := room_of_not_collides inp hinv hcol
        omega
      obtain ⟨h1, -, -, -, -, -, -, -, -, h9⟩ :=
        loop_move_ok hrun hinv.2.2.2 ⟨hinv.1, hle⟩ hcol hate ht
      rw [if_neg hate]
      exact ⟨h9, h1⟩
  obtain ⟨b, hb, hspec⟩ := tickBitmap_ok hinvt.2.1 hfood
  refine ⟨?_, hfc_snake.2, ⟨b, hb, ?_⟩, hper⟩
  · rw [hfc_snake.1, wrapInt_succ hrange]
  · intro r c
    rw [hspec r c]
    simp only [hvis t.frameCount]

set_option maxRecDepth 100000 in
/-- C17 on two reachable ticks. The first call after `setup()`: the snake has
eaten, the frame counter is 1, and the bitmap shows the snake in row 4 and the
new food at `(0,0)`. And the tick that resumes the game paused at frame counter
`INT_MAX`: the counter becomes `INT_MIN`, the test holds of it, and the bitmap
shows the moved snake and the food at `(0,0)`, the old tail cell `(4,2)` dark. -/
theorem tick_bitmap_witness :
    (loop startState (neutral [(0, 0)]) = .ok afterFirstMeal ∧
      afterFirstMeal.frameCount = 1 ∧
      ∃ b, tickBitmap afterFirstMeal = .ok b ∧
        b 4 3 = 1 ∧ b 4 0 = 1 ∧ b 0 0 = 1 ∧ b 4 4 = 0) ∧
    (Reachable (pausedAt INT_MAX) ∧
      loop (pausedAt INT_MAX) pressButton = .ok afterWrap ∧
      afterWrap.frameCount = INT_MIN ∧
      afterWrap.snake = [(5, 1), (5, 2), (5, 3), (4, 3)] ∧
      ∃ b, tickBitmap afterWrap = .ok b ∧
        b 5 1 = 1 ∧ b 4 3 = 1 ∧ b 0 0 = 1 ∧ b 4 2 = 0) := by
  constructor
  · obtain ⟨h1, -, ⟨b, hb, hspec⟩, -⟩ :=
      tick_bitmap startState reachable_startState (neutral [(0, 0)]) afterFirstMeal
        (by decide) (by decide) rfl (by decide)
    refine ⟨rfl, by decide, b, hb, ?_, ?_, ?_, ?_⟩
    · rw [hspec]; decide
    · rw [hspec]; decide
    · rw [hspec]; decide
    · rw [hspec]; decide
  · obtain ⟨h1, h2, ⟨b, hb, hspec⟩, -⟩ :=
      tick_bitmap (pausedAt INT_MAX) reachable_pausedAt_INT_MAX pressButton afterWrap
        (by decide) (by decide) loop_afterWrap (by decide)
    refine ⟨reachable_pausedAt_INT_MAX, loop_afterWrap, ?_, by decide, b, hb, ?_, ?_, ?_, ?_⟩
    · rw [h1]; rfl
    · rw [hspec]; decide
    · rw [hspec]; decide
    · rw [hspec]; decide
    · rw [hspec]; decide

/-- C18. In every reachable state the food cell is no snake cell, so a candidate
head is never at once on the snake and on the food. -/
theorem reachable_food_off_snake (s : State) (h : Reachable s) :
    (∀ i, i < s.snakeLen → ¬ (s.snakeRow i = s.foodRow ∧ s.snakeCol i = s.foodCol)) ∧
    onSnake s.snakeRow s.snakeCol s.snakeLen s.foodRow s.foodCol = false ∧
    ∀ inp : Input,
      ¬ (candidate s inp ∈ s.snake ∧ candidate s inp = (s.foodRow, s.foodCol)) := by
  have hoff := food_off_of_reachable h
  refine ⟨?_, onSnake_false_iff.mpr hoff, ?_⟩
  · rintro i hi ⟨h1, h2⟩
    exact hoff (mem_cells.mpr ⟨i, hi, Prod.ext h1 h2⟩)
  · rintro inp ⟨h1, h2⟩
    rw [h2] at h1
    exact hoff h1

/-- C18 on the reachable state `beforeCollision`: the food `(0,0)` is off the
snake `(5,2),(5,3),(4,3),(4,2)`. -/
theorem reachable_food_off_snake_witness :
    (beforeCollision.foodRow, beforeCollision.foodCol) = (0, 0) ∧
    onSnake beforeCollision.snakeRow beforeCollision.snakeCol beforeCollision.snakeLen
      beforeCollision.foodRow beforeCollision.foodCol = false :=
  ⟨by decide, (reachable_food_off_snake beforeCollision reachable_beforeCollision).2.1⟩

/-- Distinct cells inside the grid that number `MAX_SNAKE_LEN` cover the grid. -/
theorem covers_of_full {l : List (Int × Int)} (hnd : l.Nodup)
    (hin : ∀ p ∈ l, inGrid p) (hlen : l.length = MAX_SNAKE_LEN) :
    ∀ p, inGrid p → p ∈ l := by
  have hsub : l.toFinset ⊆ Finset.Icc (0 : Int) 7 ×ˢ Finset.Icc (0 : Int) 11 := by
    intro p hp
    have h := hin p (List.mem_toFinset.mp hp)
    unfold inGrid ROWS COLS at h
    rw [Finset.mem_product, Finset.mem_Icc, Finset.mem_Icc]
    omega
  have hcard : (Finset.Icc (0 : Int) 7 ×ˢ Finset.Icc (0 : Int) 11).card ≤ l.toFinset.card := by
    rw [List.toFinset_card_of_nodup hnd, Finset.card_product, Int.card_Icc, Int.card_Icc, hlen]
    simp [MAX_SNAKE_LEN]
  have heq := Finset.eq_of_subset_of_card_le hsub hcard
  intro p hp
  unfold inGrid ROWS COLS at hp
  have : p ∈ Finset.Icc (0 : Int) 7 ×ˢ Finset.Icc (0 : Int) 11 := by
    rw [Finset.mem_product, Finset.mem_Icc, Finset.mem_Icc]
    omega
  rw [← heq] at this
  exact List.mem_toFinset.mp this

/-- C19. In every reachable state a tick that takes the eating branch starts with
`snakeLen` at most 95, so the writes at index `snakeLen` are inside the arrays
and the call faults on no array; and a reachable state with
`snakeLen = MAX_SNAKE_LEN` has the snake on every cell of the grid, and every
tick in it is a collision. -/
theorem reachable_eating_has_room (s : State) (h : Reachable s) :
    (∀ inp : Input, runsTick s inp → collision s inp = false →
      candidate s inp = (s.foodRow, s.foodCol) →
      s.snakeLen ≤ 95 ∧ s.snakeLen < MAX_SNAKE_LEN ∧ loop s inp ≠ .error .outOfBounds) ∧
    (s.snakeLen = MAX_SNAKE_LEN →
      (∀ p, inGrid p → p ∈ s.snake) ∧
      ∀ inp : Input, collision s inp = true) := by
  have hinv := inv_of_reachable h
  constructor
  · intro inp _ hcol _
    have hroom := room_of_not_collides inp hinv hcol
    refine ⟨?_, hroom, loop_ne_outOfBounds inp hinv⟩
    unfold MAX_SNAKE_LEN at hroom
    omega
  · intro hfull
    have hcov := covers_of_full hinv.2.2.1 hinv.2.1
      (by rw [State.snake, length_cells]; exact hfull)
    refine ⟨hcov, ?_⟩
    intro inp
    unfold collision
    rw [collides_eq_onSnake inp hinv, onSnake_iff]
    exact hcov _ (candidate_inGrid inp hinv)

/-- C19 on the first call after `setup()`: the tick eats with `snakeLen = 3`. -/
theorem reachable_eating_has_room_witness :
    Reachable startState ∧
    candidate startState (neutral [(0, 0)]) = (startState.foodRow, startState.foodCol) ∧
    startState.snakeLen ≤ 95 ∧
    loop startState (neutral [(0, 0)]) ≠ .error .outOfBounds := by
  have h := (reachable_eating_has_room startState reachable_startState).1
    (neutral [(0, 0)]) (by decide) (by decide) (by decide)
  exact ⟨reachable_startState, by decide, h.1, h.2.2⟩

/-- C20. In every reachable state `gameOver` and `paused` are never both set, so the
flags encode exactly one of the three modes. -/
theorem reachable_flags_exclusive (s : State) (h : Reachable s) :
    ¬ (s.gameOver = true ∧ s.paused = true) ∧
    (mode s = Mode.RUNNING ↔ s.gameOver = false ∧ s.paused = false) ∧
    (mode s = Mode.PAUSED ↔ s.gameOver = false ∧ s.paused = true) ∧
    (mode s = Mode.GAME_OVER ↔ s.gameOver = true ∧ s.paused = false) := by
  have hfl := flags_of_reachable h
  obtain ⟨m1, m2, m3⟩ := mode_cases s
  refine ⟨hfl, m3, m2, ?_⟩
  rw [m1]
  constructor
  · intro hg
    refine ⟨hg, ?_⟩
    cases hp : s.paused
    · rfl
    · exact absurd ⟨hg, hp⟩ hfl
  · exact fun hh => hh.1

/-- C20 on the reachable state `afterResume`, which is in game-over mode: `paused`
is clear. -/
theorem reachable_flags_exclusive_witness :
    Reachable afterResume ∧ afterResume.gameOver = true ∧ afterResume.paused = false := by
  have hr : Reachable afterResume :=
    Reachable.step pausedBeforeCollision pressButtonUp afterResume
      reachable_pausedBeforeCollision loop_pressButtonUp
  have h := (reachable_flags_exclusive afterResume hr).2.2.2.1 (by decide)
  exact ⟨hr, h.1, h.2⟩

end Snake
